import Mathlib

/-!
A shallow embedding of `src/cl_maxalloc.c` (cl_maxalloc, an OpenCL memory
prober) and the properties of its run.

The program is a single `main`.  It is embedded phase by phase, in the order of
the source, as pure functions that return the sequence of observable events
(device-API calls, host allocations, printed lines) together with the way the
process ends.

Conventions of the embedding

* `BIGINT` is `long unsigned int`, taken to be 64 bits wide: every `BIGINT`
  value is a `Nat` below `2^64` and arithmetic that can leave that range is
  reduced `% 2^64` explicitly.
* The OpenCL runtime is an oracle (`Device`): for every device-API call whose
  status the program can observe it gives the returned status (`0` is
  `CL_SUCCESS`), and it gives the effect of one kernel execution on device
  memory.  The embedded kernels of `krn_src` are one such effect
  (`krnLaunch`).
* The host allocator is part of the same oracle: `hostMalloc` says whether a
  `malloc` call returns a block, and no request above `PTRDIFF_MAX` bytes is
  ever granted.  The program never inspects the result of `malloc`; a store
  through a null result, or past the end of a block, ends the run.
* `atoi` belongs to the C library; it is modelled as glibc defines it,
  `(int) strtol(s, NULL, 10)` on an LP64 platform: optional white space,
  optional sign, decimal digits, the value clamped to `long` and then reduced
  to the 32-bit `int`.
* Undefined behaviour (`atoi` of a null pointer, division by zero, a store
  through a null pointer or out of bounds) ends a run with the status
  `crashed`.
-/

namespace ClMaxalloc

/-! ## Machine integers -/

/-- Number of values of `BIGINT` (`long unsigned int`, 64 bits). -/
def BIGINT_RANGE : Nat := 2 ^ 64

/-- Number of values of the OpenCL C type `unsigned int` (32 bits). -/
def UINT_RANGE : Nat := 2 ^ 32

/-- The value of `sizeof(int)`. -/
def sizeofInt : Nat := 4

/-- The value of `sizeof(cl_mem)` and of `sizeof(int*)`. -/
def sizeofPtr : Nat := 8

/-- The largest size of an object, `PTRDIFF_MAX`; `malloc` grants no request
above it. -/
def PTRDIFF_MAX : Nat := 2 ^ 63 - 1

/-- Conversion of a `long` to `int`: reduction to the 32-bit two's complement
range. -/
def toInt32 (v : Int) : Int := (v + 2 ^ 31) % 2 ^ 32 - 2 ^ 31

/-- The clamping of `strtol`: a value outside the range of the 64-bit `long`
is replaced by `LONG_MIN` or `LONG_MAX`. -/
def clampLong (v : Int) : Int :=
  if v < -(2 ^ 63) then -(2 ^ 63) else if 2 ^ 63 - 1 < v then 2 ^ 63 - 1 else v

/-- Conversion of an `int` to `BIGINT` (C conversion to an unsigned type:
reduction modulo `2^64`). -/
def toBIGINT (v : Int) : Nat := (v % (BIGINT_RANGE : Int)).toNat

/-! ## `atoi` -/

/-- White space as recognised by `isspace` in the C locale. -/
def isSpace (c : Char) : Bool := c.toNat = 32 || (9 ≤ c.toNat && c.toNat ≤ 13)

/-- Value of the longest prefix of decimal digits, continuing from `acc`. -/
def digitsVal : List Char → Nat → Nat
  | [], acc => acc
  | c :: cs, acc =>
    if 48 ≤ c.toNat ∧ c.toNat ≤ 57 then digitsVal cs (acc * 10 + (c.toNat - 48)) else acc

/-- The integer a string denotes: optional white space, an optional sign and
then decimal digits, up to the first other character (0 when there is no
digit). -/
def intValue (s : String) : Int :=
  match s.toList.dropWhile isSpace with
  | '-' :: r => - (digitsVal r 0 : Int)
  | '+' :: r => (digitsVal r 0 : Int)
  | r => (digitsVal r 0 : Int)

/-- The C library `strtol (s, NULL, 10)`: the integer the string denotes,
clamped to the range of `long`. -/
def strtol (s : String) : Int := clampLong (intValue s)

/-- The C library `atoi`, as glibc defines it: `(int) strtol (s, NULL, 10)`.
It returns an `int`: `atoi "2147483648"` is -2147483648 and
`atoi "4294967300"` is 4. -/
def atoi (s : String) : Int := toInt32 (strtol s)

/-! ## Configure phase (source lines 55-111) -/

/-- How the flag loop of lines 83-108 ends. -/
inductive Flags where
  /-- A `--help` was met: usage is printed and `exit(1)` is called (line 103). -/
  | usage
  /-- A `--chunk` or `--maxmem` was the last argument: `argv[iArg+1]` with
  `iArg+1 = argc` is read and handed to `atoi`; `index` is `iArg+1`. -/
  | badRead (index : Nat)
  /-- The loop ran to its end with these values of `chunk` and `maxmem`. -/
  | ok (chunk maxmem : Nat)
  deriving DecidableEq

/-- The loop `for (iArg=1; iArg<argc; iArg++)` of lines 84-107.  `rest` is
`argv[iArg], ..., argv[argc-1]`, so that `argv[iArg+1]` is the head of the tail
of `rest` and does not exist exactly when `iArg+1 = argc`. -/
def flagLoop : (iArg : Nat) → (rest : List String) → (chunk maxmem : Nat) → Flags
  | _, [], chunk, maxmem => .ok chunk maxmem
  | iArg, a :: rest, chunk, maxmem =>
    if a = "--help" then .usage
    else if a = "--chunk" then
      match rest with
      | [] => .badRead (iArg + 1)
      | v :: _ => flagLoop (iArg + 1) rest (toBIGINT (atoi v)) maxmem
    else if a = "--maxmem" then
      match rest with
      | [] => .badRead (iArg + 1)
      | v :: _ => flagLoop (iArg + 1) rest chunk (toBIGINT (atoi v))
    else flagLoop (iArg + 1) rest chunk maxmem

/-- Lines 55-56 and 83-108: `chunk = 10`, `maxmem = 2000`, and the flag loop,
entered only when `argc <= 6`. -/
def getFlags (argv : List String) : Flags :=
  if argv.length ≤ 6 then flagLoop 1 argv.tail 10 2000 else .ok 10 2000

/-- Line 111: `nX = (chunk*(BIGINT)1e6)/sizeof(int)`, the product taken in
`BIGINT`. -/
def elemCount (chunk : Nat) : Nat := (chunk * 1000000 % BIGINT_RANGE) / sizeofInt

/-- The size printed by lines 138, 160 and 247:
`iChunk*nX*sizeof(int)/(BIGINT)1e6`, the product taken in `BIGINT`. -/
def printedMB (iChunk nX : Nat) : Nat := (iChunk * nX * sizeofInt % BIGINT_RANGE) / 1000000

/-! ## Host and device memory -/

/-- Contents of one buffer of `int`: element index to value. -/
abbrev Buf := Nat → Int

/-- Contents of an array of buffers (`buffers_host` or the device buffers behind
`buffers_dev`): chunk index to buffer. -/
abbrev Mem := Nat → Buf

/-- The store `b[i] = v`. -/
def setElem (b : Buf) (i : Nat) (v : Int) : Buf := fun j => if j = i then v else b j

/-- Replacement of the contents of chunk `c`. -/
def setBuf (m : Mem) (c : Nat) (b : Buf) : Mem := fun k => if k = c then b else m k

/-- A blocking transfer of `n` elements at offset 0 from `src` over `dst`
(`clEnqueueWriteBuffer` and `clEnqueueReadBuffer` with `nX*sizeof(int)`
bytes). -/
def copyElems (n : Nat) (src dst : Buf) : Buf := fun j => if j < n then src j else dst j

/-- Line 148: `for (iX=0; iX<nX; iX++) *(*(buffers_host+iChunk)+iX) = 0;`. -/
def zeroFill : (nX : Nat) → Buf → Buf
  | 0, b => b
  | iX + 1, b => setElem (zeroFill iX b) iX 0

/-! ## The test kernels (source lines 36-51) -/

/-- The statement `idx = get_group_id(0)*get_local_size(0) + get_local_id(0);`
with `unsigned int idx` (32 bits in OpenCL C). -/
def workItemIdx (group loc lid : Nat) : Nat := (group * loc + lid) % UINT_RANGE

/-- The statement `buff[idx] += 1;` on the buffer bound to chunk `c`.  (The
elements are `int`; the runs considered never bring one near `INT_MAX`.) -/
def incrAt (m : Mem) (c idx : Nat) : Mem := setBuf m c (setElem (m c) idx (m c idx + 1))

/-- One work-item of `test_1chunk`; `buff` is bound to `buffers_dev+0`
(line 202). -/
def test_1chunk (group loc lid : Nat) (m : Mem) : Mem :=
  incrAt m 0 (workItemIdx group loc lid)

/-- One work-item of `test_2chunk`; `buff_0` and `buff_1` are bound to
`buffers_dev+0` and `buffers_dev+1` (lines 212-213). -/
def test_2chunk (group loc lid : Nat) (m : Mem) : Mem :=
  incrAt (incrAt m 0 (workItemIdx group loc lid)) 1 (workItemIdx group loc lid)

/-- The work-items `0, ..., n-1` of work-group `group`. -/
def runLocal (krn : Nat → Nat → Nat → Mem → Mem) (group loc : Nat) : Nat → Mem → Mem
  | 0, m => m
  | lid + 1, m => krn group loc lid (runLocal krn group loc lid m)

/-- The work-groups `0, ..., n-1`, each of `loc` work-items. -/
def runGroups (krn : Nat → Nat → Nat → Mem → Mem) (loc : Nat) : Nat → Mem → Mem
  | 0, m => m
  | group + 1, m => runLocal krn group loc loc (runGroups krn loc group m)

/-- One execution of a kernel over a one-dimensional range of global size
`glo` and local size `loc`: `glo / loc` work-groups. -/
def ndrange (krn : Nat → Nat → Nat → Mem → Mem) (glo loc : Nat) (m : Mem) : Mem :=
  runGroups krn loc (glo / loc) m

/-- One execution of the kernel entry point `kernel` of `krn_src` (`1` is
`test_1chunk`, anything else `test_2chunk`). -/
def krnLaunch (kernel glo loc : Nat) (m : Mem) : Mem :=
  if kernel = 1 then ndrange test_1chunk glo loc m else ndrange test_2chunk glo loc m

/-! ## The device oracle, events and outcomes -/

/-- The environment of a run as seen by `main`: the OpenCL runtime and the
host allocator.  A status of `0` is `CL_SUCCESS`. -/
structure Device where
  /-- Status stored by `clGetPlatformIDs` (line 115; never inspected). -/
  clGetPlatformIDs : Int
  /-- Value of `CL_DEVICE_GLOBAL_MEM_SIZE` (line 120). -/
  globalMemSize : Nat
  /-- Status of the `clCreateBuffer` call of iteration `iChunk` for `bytes`
  bytes (line 130). -/
  clCreateBuffer : (iChunk bytes : Nat) → Int
  /-- Status of the `clEnqueueWriteBuffer` call of iteration `iChunk`
  (line 152). -/
  clEnqueueWriteBuffer : (iChunk : Nat) → Int
  /-- Status of `clCreateProgramWithSource` (line 165). -/
  clCreateProgramWithSource : Int
  /-- Status of `clBuildProgram` (line 172). -/
  clBuildProgram : Int
  /-- Value returned by `clSetKernelArg` for argument `arg` of kernel `kernel`
  (lines 202, 212, 213; the program discards it). -/
  clSetKernelArg : (kernel arg : Nat) → Int
  /-- Status of the `clEnqueueNDRangeKernel` call of iteration `iT` for
  kernel `kernel` (lines 204, 215). -/
  clEnqueueNDRangeKernel : (kernel iT : Nat) → Int
  /-- Status of the `clEnqueueReadBuffer` call of iteration `iChunk`
  (line 234). -/
  clEnqueueReadBuffer : (iChunk : Nat) → Int
  /-- Effect on device memory of one execution of kernel `kernel` with global
  size `glo` and local size `loc`. -/
  launch : (kernel glo loc : Nat) → Mem → Mem
  /-- Size of the build log reported by the first `clGetProgramBuildInfo`
  (line 176), the value of `cl_ret_size`. -/
  buildLogSize : Nat
  /-- Whether the host has memory for the `malloc` of source line `line`
  (128, 145, 147 or 178), in iteration `iChunk` for line 147, asking for
  `bytes` bytes. -/
  hostMalloc : (line iChunk bytes : Nat) → Bool
  /-- Contents of freshly allocated host memory. -/
  hostGarbage : Mem
  /-- Contents of freshly created device buffers. -/
  devGarbage : Mem

/-- What the process does that can be observed from outside, in order. -/
inductive Event where
  | printUsage
  | clGetPlatformIDs (err : Int)
  | clGetDeviceIDs
  | clCreateContext
  | clCreateCommandQueue
  | clGetDeviceInfo
  | printContext (mb : Nat)
  | mallocDevArray (nChunk : Nat)
  | clCreateBuffer (iChunk bytes : Nat) (err : Int)
  | printFail (err : Int)
  | printAllocated (mb : Nat)
  | printNX (nX : Nat)
  | mallocHostArray (nChunk : Nat)
  | mallocHost (iChunk : Nat)
  | clEnqueueWriteBuffer (iChunk : Nat) (err : Int)
  | printInitialized (mb : Nat)
  | clCreateProgramWithSource (err : Int)
  | printCreateProgram (err : Int)
  | clBuildProgram (err : Int)
  | clGetProgramBuildInfo
  | mallocLog (bytes : Nat)
  | printBuildLog
  | clCreateKernel (kernel : Nat)
  | printBadNX
  | clSetKernelArg (kernel arg : Nat) (ret : Int)
  | clEnqueueNDRangeKernel (kernel iT : Nat) (err : Int)
  | printUnable
  | clFinish
  | printCompleted
  | clEnqueueReadBuffer (iChunk : Nat) (err : Int)
  | printFailPlain
  | printChecked (mb : Nat)
  | freeHost (iChunk : Nat)
  | clReleaseMemObject (iChunk : Nat)
  | freeHostArray
  | freeDevArray
  | clReleaseCommandQueue
  | clReleaseContext
  deriving DecidableEq

/-- How the process ends. -/
inductive Status where
  /-- By `exit(code)` or by `return code` from `main`. -/
  | exited (code : Nat)
  /-- By undefined behaviour (`atoi` of the null pointer `argv[argc]`,
  division by zero, a store through a null pointer or out of bounds): there
  is no exit status. -/
  | crashed
  deriving DecidableEq

/-- A run: the events in order and the way the process ends. -/
structure Outcome where
  trace : List Event
  status : Status
  deriving DecidableEq

/-- The run `o` preceded by the events `pre`. -/
def Outcome.after (o : Outcome) (pre : List Event) : Outcome := ⟨pre ++ o.trace, o.status⟩

/-! ## The loops -/

/-- The loop shape shared by lines 129-136, 151-158, 203-210, 214-221 and
233-240:
`for (i = ...; i < n; i++) { err_tr = call(i); if (err_tr != CL_SUCCESS) { printf(FAIL); exit(1); } }`.
`eff i` is the effect of a successful call on the memory `σ`.  The result is
the events of the loop and, unless `exit(1)` was called, the final value of
the loop variable and the memory. -/
def checkedLoop {σ : Type} (call : Nat → Int) (ev : Nat → Int → Event) (eff : Nat → σ → σ) :
    (remaining i : Nat) → σ → List Event × Option (Nat × σ)
  | 0, i, s => ([], some (i, s))
  | k + 1, i, s =>
    if call i = 0 then
      ((ev i (call i)) :: (checkedLoop call ev eff k (i + 1) (eff i s)).1,
        (checkedLoop call ev eff k (i + 1) (eff i s)).2)
    else ([ev i (call i), .printFail (call i)], none)

/-- How a loop that stores through an unchecked pointer ends. -/
inductive LoopEnd where
  /-- The loop ran to its end; `i` is the final value of the loop variable. -/
  | done (i : Nat)
  /-- The loop called `exit(1)`. -/
  | exited
  /-- The loop stored through a null pointer or out of bounds. -/
  | crashed
  deriving DecidableEq

/-- The loop of lines 129-136:
`for (i = ...; i < n; i++) { *(p+i) = call(i, &err_tr); if (err_tr != CL_SUCCESS) { printf(FAIL); exit(1); } }`.
The call is made, then its result is stored through `p+i` (`valid i` says
whether that store is defined), and only then is `err_tr` tested. -/
def storeLoop (call : Nat → Int) (valid : Nat → Bool) (ev : Nat → Int → Event) :
    (remaining i : Nat) → List Event × LoopEnd
  | 0, i => ([], .done i)
  | k + 1, i =>
    if valid i = true then
      if call i = 0 then
        ((ev i (call i)) :: (storeLoop call valid ev k (i + 1)).1,
          (storeLoop call valid ev k (i + 1)).2)
      else ([ev i (call i), .printFail (call i)], .exited)
    else ([ev i (call i)], .crashed)

/-- Whether the `malloc` of source line `line` returns a block rather than
NULL: the request fits an object and the host has the memory. -/
def granted (d : Device) (line iChunk bytes : Nat) : Bool :=
  decide (bytes ≤ PTRDIFF_MAX) && d.hostMalloc line iChunk bytes

/-- Lines 128 and 145: the byte count `nChunk*sizeof(cl_mem)` (and
`nChunk*sizeof(int*)`), the product taken in the 64-bit `size_t`. -/
def arrayBytes (nChunk : Nat) : Nat := nChunk * sizeofPtr % BIGINT_RANGE

/-- Line 147: the byte count `nX*sizeof(int)`, taken in `size_t`. -/
def mirrorBytes (nX : Nat) : Nat := nX * sizeofInt % BIGINT_RANGE

/-- Line 178: the byte count `cl_ret_size+1`, taken in `size_t`. -/
def logBytes (d : Device) : Nat := (d.buildLogSize % BIGINT_RANGE + 1) % BIGINT_RANGE

/-- The store `*(buffers_dev+iChunk) = ...` of line 130 is defined: the block
of line 128 exists and has room for element `iChunk`. -/
def handleStoreOk (d : Device) (nChunk iChunk : Nat) : Bool :=
  granted d 128 0 (arrayBytes nChunk) &&
    decide ((iChunk + 1) * sizeofPtr ≤ arrayBytes nChunk)

/-- The stores of lines 147-148 in iteration `iChunk` are defined: the block
of line 145 exists and has room for element `iChunk`, and the mirror of line
147 exists and has room for `nX` elements (or there is no element to
store). -/
def mirrorStoreOk (d : Device) (nChunk nX iChunk : Nat) : Bool :=
  (granted d 145 0 (arrayBytes nChunk) &&
      decide ((iChunk + 1) * sizeofPtr ≤ arrayBytes nChunk)) &&
    ((granted d 147 iChunk (mirrorBytes nX) && decide (nX * sizeofInt ≤ mirrorBytes nX))
      || decide (nX = 0))

/-- The store `*(cl_log+cl_ret_size) = 0` of line 182 is defined: the block of
line 178 exists and has room for `cl_ret_size+1` characters. -/
def logStoreOk (d : Device) : Bool :=
  granted d 178 0 (logBytes d) && decide (d.buildLogSize % BIGINT_RANGE + 1 ≤ logBytes d)

/-- Lines 129-136: the allocation loop, `nChunk` iterations from `iChunk = 0`;
each handle is stored in the array allocated at line 128. -/
def allocLoop (d : Device) (nX nChunk : Nat) : List Event × LoopEnd :=
  storeLoop (fun i => d.clCreateBuffer i (nX * sizeofInt)) (handleStoreOk d nChunk)
    (fun i err => .clCreateBuffer i (nX * sizeofInt) err) nChunk 0

/-- Lines 146-149, the events: in iteration `iChunk` a mirror is allocated, its
address is stored in the array of line 145 and it is filled with 0 (`valid
iChunk` says whether those stores are defined).  The second component is
`false` when the loop ended in an undefined store. -/
def hostLoop (valid : Nat → Bool) : (remaining iChunk : Nat) → List Event × Bool
  | 0, _ => ([], true)
  | k + 1, i =>
    if valid i = true then
      (Event.mallocHost i :: (hostLoop valid k (i + 1)).1, (hostLoop valid k (i + 1)).2)
    else ([Event.mallocHost i], false)

/-- Lines 146-149, the memory: the host mirrors, each allocated and then
filled with 0. -/
def hostInit (d : Device) (nX : Nat) : (nChunk : Nat) → Mem → Mem
  | 0, host => host
  | iChunk + 1, host =>
    setBuf (hostInit d nX iChunk host) iChunk (zeroFill nX (d.hostGarbage iChunk))

/-- Lines 151-158: the write loop; a successful blocking write copies host
mirror `iChunk` to device buffer `iChunk`. -/
def writeLoop (d : Device) (nX nChunk : Nat) (host : Mem) (dev : Mem) :
    List Event × Option (Nat × Mem) :=
  checkedLoop d.clEnqueueWriteBuffer (fun i err => .clEnqueueWriteBuffer i err)
    (fun i m => setBuf m i (copyElems nX (host i) (m i))) nChunk 0 dev

/-- Lines 203-210 and 214-221: 100 launches of kernel `kernel` on the
in-order queue `CmdQueue`; the launches take effect in the order they were
enqueued. -/
def launchLoop (d : Device) (kernel glo loc : Nat) (dev : Mem) :
    List Event × Option (Nat × Mem) :=
  checkedLoop (d.clEnqueueNDRangeKernel kernel) (fun i err => .clEnqueueNDRangeKernel kernel i err)
    (fun _ m => d.launch kernel glo loc m) 100 0 dev

/-- Lines 233-240: the read loop; a successful blocking read copies device
buffer `iChunk` to host mirror `iChunk`. -/
def readLoop (d : Device) (nX nChunk : Nat) (dev : Mem) (host : Mem) :
    List Event × Option (Nat × Mem) :=
  checkedLoop d.clEnqueueReadBuffer (fun i err => .clEnqueueReadBuffer i err)
    (fun i h => setBuf h i (copyElems nX (dev i) (h i))) nChunk 0 host

/-- The inner loop of lines 241-245,
`for (iX=0; iX<nX; iX++) if (buf[iX] != 100) ...`: `true` when an element
other than 100 is met. -/
def mismatch (b : Buf) : (remaining iX : Nat) → Bool
  | 0, _ => false
  | k + 1, iX => if b iX ≠ 100 then true else mismatch b k (iX + 1)

/-- The outer loop of lines 241-245: `none` when `exit(1)` is called, else the
final value of `iChunk`. -/
def verifyLoop (host : Mem) (nX : Nat) : (remaining iChunk : Nat) → Option Nat
  | 0, iChunk => some iChunk
  | k + 1, iChunk =>
    if mismatch (host iChunk) nX 0 then none else verifyLoop host nX k (iChunk + 1)

/-! ## `main`, phase by phase -/

/-- Lines 251-258: the release loops and the final releases. -/
def teardown (nAccessed nChunk : Nat) : List Event :=
  (List.range nAccessed).map Event.freeHost ++
    ((List.range nChunk).map Event.clReleaseMemObject ++
      [.freeHostArray, .freeDevArray, .clReleaseCommandQueue, .clReleaseContext])

/-- Lines 233-260: read back, verify, print, tear down, `return 0`. -/
def checkPhase (d : Device) (nChunk nX nAccessed : Nat) (host dev : Mem) : Outcome :=
  match readLoop d nX nChunk dev host with
  | (evs, none) => ⟨evs, .exited 1⟩
  | (evs, some (_, host1)) =>
    match verifyLoop host1 nX nChunk 0 with
    | none => ⟨evs ++ [.printFailPlain], .exited 1⟩
    | some iChunk =>
      ⟨evs ++ (.printChecked (printedMB iChunk nX) :: teardown nAccessed nChunk), .exited 0⟩

/-- Lines 201-228 for one of the two kernels: the launch loop, `clFinish`, the
completion line, then the check phase.  `binds` are the `clSetKernelArg`
events that precede the loop. -/
def launchPhase (d : Device) (kernel nChunk nX nAccessed : Nat) (host dev : Mem)
    (binds : List Event) : Outcome :=
  match launchLoop d kernel nX 64 dev with
  | (evs, none) => ⟨binds ++ evs, .exited 1⟩
  | (evs, some (_, dev1)) =>
    (checkPhase d nChunk nX nAccessed host dev1).after
      (binds ++ (evs ++ [.clFinish, .printCompleted]))

/-- Lines 194-228: `loc = 64`, `glo = nX`, the divisibility check, and the
choice between `test_1chunk`, `test_2chunk` and refusal. -/
def kernelPhase (d : Device) (nChunk nX nAccessed : Nat) (host dev : Mem) : Outcome :=
  if nX % 64 ≠ 0 then ⟨[.printBadNX], .exited 1⟩
  else if nChunk = 1 then
    launchPhase d 1 nChunk nX nAccessed host dev [.clSetKernelArg 1 0 (d.clSetKernelArg 1 0)]
  else if nChunk = 2 then
    launchPhase d 2 nChunk nX nAccessed host dev
      [.clSetKernelArg 2 0 (d.clSetKernelArg 2 0), .clSetKernelArg 2 1 (d.clSetKernelArg 2 1)]
  else ⟨[.printUnable], .exited 1⟩

/-- Lines 165-190: program creation and build, the two kernel objects.  After
a failed build the log is fetched into the block of line 178 and terminated
with a store through it (line 182). -/
def buildPhase (d : Device) (nChunk nX nAccessed : Nat) (host dev : Mem) : Outcome :=
  if d.clCreateProgramWithSource ≠ 0 then
    ⟨[.clCreateProgramWithSource d.clCreateProgramWithSource,
      .printCreateProgram d.clCreateProgramWithSource], .exited 1⟩
  else if d.clBuildProgram ≠ 0 then
    if logStoreOk d = true then
      ⟨[.clCreateProgramWithSource d.clCreateProgramWithSource,
        .clBuildProgram d.clBuildProgram, .clGetProgramBuildInfo, .mallocLog (logBytes d),
        .clGetProgramBuildInfo, .printBuildLog], .exited 1⟩
    else
      ⟨[.clCreateProgramWithSource d.clCreateProgramWithSource,
        .clBuildProgram d.clBuildProgram, .clGetProgramBuildInfo, .mallocLog (logBytes d),
        .clGetProgramBuildInfo], .crashed⟩
  else
    (kernelPhase d nChunk nX nAccessed host dev).after
      [.clCreateProgramWithSource d.clCreateProgramWithSource, .clBuildProgram d.clBuildProgram,
        .clCreateKernel 1, .clCreateKernel 2]

/-- Lines 143-161: the host mirrors, the write loop, `nAccessed = iChunk`. -/
def initPhase (d : Device) (nChunk nX : Nat) : Outcome :=
  match hostLoop (mirrorStoreOk d nChunk nX) nChunk 0 with
  | (hevs, false) => ⟨.printNX nX :: .mallocHostArray nChunk :: hevs, .crashed⟩
  | (hevs, true) =>
    match writeLoop d nX nChunk (hostInit d nX nChunk d.hostGarbage) d.devGarbage with
    | (evs, none) => ⟨.printNX nX :: .mallocHostArray nChunk :: (hevs ++ evs), .exited 1⟩
    | (evs, some (iChunk, dev)) =>
      (buildPhase d nChunk nX iChunk (hostInit d nX nChunk d.hostGarbage) dev).after
        (.printNX nX :: .mallocHostArray nChunk ::
          (hevs ++ (evs ++ [.printInitialized (printedMB iChunk nX)])))

/-- Lines 128-139: the handle array, the allocation loop, the printed size,
`nChunk = iChunk`. -/
def allocPhase (d : Device) (nChunk nX : Nat) : Outcome :=
  match allocLoop d nX nChunk with
  | (evs, .crashed) => ⟨.mallocDevArray nChunk :: evs, .crashed⟩
  | (evs, .exited) => ⟨.mallocDevArray nChunk :: evs, .exited 1⟩
  | (evs, .done iChunk) =>
    (initPhase d iChunk nX).after
      (.mallocDevArray nChunk :: (evs ++ [.printAllocated (printedMB iChunk nX)]))

/-- Lines 115-124: platform, device, context, queue, the printed memory size. -/
def acquire (d : Device) : List Event :=
  [.clGetPlatformIDs d.clGetPlatformIDs, .clGetDeviceIDs, .clCreateContext,
    .clCreateCommandQueue, .clGetDeviceInfo, .printContext (d.globalMemSize / 1000000)]

/-- The program: `main (argc, argv)` with `argc = argv.length`, run against
the device `d`.  Line 110 divides by `chunk`; for `chunk = 0` the behaviour is
undefined. -/
def main (d : Device) (argv : List String) : Outcome :=
  match getFlags argv with
  | .usage => ⟨[.printUsage], .exited 1⟩
  | .badRead _ => ⟨[], .crashed⟩
  | .ok chunk maxmem =>
    if chunk = 0 then ⟨[], .crashed⟩
    else (allocPhase d (maxmem / chunk) (elemCount chunk)).after (acquire d)

/-! ## Vocabulary of the proofs -/

/-- The memory after `remaining` successful iterations of a loop that starts
at `i`. -/
def effLoop {σ : Type} (eff : Nat → σ → σ) : (remaining i : Nat) → σ → σ
  | 0, _, s => s
  | k + 1, i, s => effLoop eff k (i + 1) (eff i s)

/-- The events of `n` successful iterations, from 0, of a checked loop. -/
def okCalls (ev : Nat → Int → Event) (n : Nat) : List Event :=
  (List.range' 0 n).map (fun j => ev j 0)

/-! ## Predicates on devices and events -/

/-- Every device-API call whose status `main` inspects reports success. -/
def CheckedOk (d : Device) : Prop :=
  (∀ i b, d.clCreateBuffer i b = 0) ∧ (∀ i, d.clEnqueueWriteBuffer i = 0) ∧
    d.clCreateProgramWithSource = 0 ∧ d.clBuildProgram = 0 ∧
    (∀ k i, d.clEnqueueNDRangeKernel k i = 0) ∧ (∀ i, d.clEnqueueReadBuffer i = 0)

/-- Every device-API call reports success, the ones `main` does not inspect
included. -/
def AllOk (d : Device) : Prop :=
  CheckedOk d ∧ d.clGetPlatformIDs = 0 ∧ ∀ k a, d.clSetKernelArg k a = 0

/-- The handle array, the array of mirrors and the mirrors of a run with `n`
chunks of `nX` elements are blocks that take what the program stores in them
(lines 128-130 and 145-148). -/
def HostOk (d : Device) (n nX : Nat) : Prop :=
  ∀ i, i < n → handleStoreOk d n i = true ∧ mirrorStoreOk d n nX i = true

/-- Every kernel execution adds 1 to every element of every buffer. -/
def PlusOne (d : Device) : Prop :=
  ∀ k glo loc m c j, d.launch k glo loc m c j = m c j + 1

/-- One execution of kernel `nChunk` over `nX` elements in groups of 64 adds 1
to each of the first `nX` elements of each of the first `nChunk` buffers. -/
def LaunchIncrements (d : Device) (nChunk nX : Nat) : Prop :=
  ∀ m c j, c < nChunk → j < nX → d.launch nChunk nX 64 m c j = m c j + 1

/-- A kernel launch was enqueued. -/
def Event.isLaunch : Event → Bool
  | .clEnqueueNDRangeKernel _ _ _ => true
  | _ => false

/-- An event of the teardown of lines 251-258. -/
def Event.isTeardown : Event → Bool
  | .freeHost _ => true
  | .clReleaseMemObject _ => true
  | .freeHostArray => true
  | .freeDevArray => true
  | .clReleaseCommandQueue => true
  | .clReleaseContext => true
  | _ => false

/-- An event of the read-back and verification of lines 233-247. -/
def Event.isCheck : Event → Bool
  | .clEnqueueReadBuffer _ _ => true
  | .printFailPlain => true
  | .printChecked _ => true
  | _ => false

/-- A device-API call whose status `main` inspects, reporting failure. -/
def Event.failed : Event → Bool
  | .clCreateBuffer _ _ err => err ≠ 0
  | .clEnqueueWriteBuffer _ err => err ≠ 0
  | .clCreateProgramWithSource err => err ≠ 0
  | .clBuildProgram err => err ≠ 0
  | .clEnqueueNDRangeKernel _ _ err => err ≠ 0
  | .clEnqueueReadBuffer _ err => err ≠ 0
  | _ => false

/-- What `main` does between a failed call and `exit(1)`: the failure line,
and after a failed build the retrieval and printing of the build log. -/
def Event.isDiagnostic : Event → Bool
  | .printFail _ => true
  | .printCreateProgram _ => true
  | .clGetProgramBuildInfo => true
  | .mallocLog _ => true
  | .printBuildLog => true
  | _ => false

/-- The `clSetKernelArg` events of lines 202 and 212-213. -/
def bindEvents (d : Device) (nChunk : Nat) : List Event :=
  if nChunk = 1 then [.clSetKernelArg 1 0 (d.clSetKernelArg 1 0)]
  else [.clSetKernelArg 2 0 (d.clSetKernelArg 2 0), .clSetKernelArg 2 1 (d.clSetKernelArg 2 1)]

/-- The events of a run up to and including the line `Allocated ... MB`, when
the allocation of `n` chunks succeeds. -/
def allocTrace (d : Device) (n nX : Nat) : List Event :=
  acquire d ++ (.mallocDevArray n ::
    (okCalls (fun i err => .clCreateBuffer i (nX * sizeofInt) err) n
      ++ [.printAllocated (printedMB n nX)]))

/-- The events of lines 143-149: the line `nX ...` and the host mirrors. -/
def hostTrace (n nX : Nat) : List Event :=
  .printNX nX :: .mallocHostArray n :: (List.range n).map Event.mallocHost

/-- The events of a run up to and including the line `Initialized ... MB`, when
the allocation and the initialisation of `n` chunks succeed. -/
def initTrace (d : Device) (n nX : Nat) : List Event :=
  allocTrace d n nX ++ (hostTrace n nX ++
    (okCalls (fun i err => .clEnqueueWriteBuffer i err) n
      ++ [.printInitialized (printedMB n nX)]))

/-- The events of a successful build (lines 165-190). -/
def buildTrace : List Event :=
  [.clCreateProgramWithSource 0, .clBuildProgram 0, .clCreateKernel 1, .clCreateKernel 2]

/-- The events of the kernel phase when all 100 launches are accepted. -/
def launchTrace (d : Device) (n : Nat) : List Event :=
  bindEvents d n ++ (okCalls (fun i err => .clEnqueueNDRangeKernel n i err) 100
    ++ [.clFinish, .printCompleted])

/-- The events of a fully successful run with `n` chunks of `nX` elements. -/
def successTrace (d : Device) (n nX : Nat) : List Event :=
  initTrace d n nX ++ buildTrace ++ launchTrace d n ++
    (okCalls (fun i err => .clEnqueueReadBuffer i err) n
      ++ (.printChecked (printedMB n nX) :: teardown n n))

/-- Device memory after a complete write loop. -/
def devWritten (d : Device) (nX n : Nat) : Mem :=
  effLoop (fun i (m : Mem) => setBuf m i (copyElems nX (hostInit d nX n d.hostGarbage i) (m i)))
    n 0 d.devGarbage

/-- Host memory after a complete read loop. -/
def hostRead (nX n : Nat) (dev host : Mem) : Mem :=
  effLoop (fun i (h : Mem) => setBuf h i (copyElems nX (dev i) (h i))) n 0 host

/-- Device memory at the read-back of a run with `n` chunks of `nX` elements
in which every call succeeded: written with zeros, then 100 launches. -/
def devFinal (d : Device) (n nX : Nat) : Mem :=
  (d.launch n nX 64)^[100] (devWritten d nX n)

/-- The shapes a run can take once the flags are read and `chunk` is not 0,
for `n` planned chunks of `nX` elements: one per place where `main` can
end. -/
inductive Run (d : Device) (n nX : Nat) : Outcome → Prop
  | allocFail (k : Nat) (err : Int) (hk : k < n) (herr : err ≠ 0) :
    Run d n nX ⟨acquire d ++ (.mallocDevArray n ::
      (okCalls (fun i err => .clCreateBuffer i (nX * sizeofInt) err) k
        ++ [.clCreateBuffer k (nX * sizeofInt) err, .printFail err])), .exited 1⟩
  | allocCrash (k : Nat) (err : Int) (hk : k < n) (hv : handleStoreOk d n k = false) :
    Run d n nX ⟨acquire d ++ (.mallocDevArray n ::
      (okCalls (fun i err => .clCreateBuffer i (nX * sizeofInt) err) k
        ++ [.clCreateBuffer k (nX * sizeofInt) err])), .crashed⟩
  | hostCrash (k : Nat) (hk : k < n) (hv : mirrorStoreOk d n nX k = false) :
    Run d n nX ⟨allocTrace d n nX ++ (.printNX nX :: .mallocHostArray n ::
      ((List.range k).map Event.mallocHost ++ [.mallocHost k])), .crashed⟩
  | writeFail (k : Nat) (err : Int) (hk : k < n) (herr : err ≠ 0) :
    Run d n nX ⟨allocTrace d n nX ++ (hostTrace n nX ++
      (okCalls (fun i err => .clEnqueueWriteBuffer i err) k
        ++ [.clEnqueueWriteBuffer k err, .printFail err])), .exited 1⟩
  | createFail (err : Int) (herr : err ≠ 0) :
    Run d n nX ⟨initTrace d n nX
      ++ [.clCreateProgramWithSource err, .printCreateProgram err], .exited 1⟩
  | buildFail (err : Int) (herr : err ≠ 0) (hl : logStoreOk d = true) :
    Run d n nX ⟨initTrace d n nX
      ++ [.clCreateProgramWithSource 0, .clBuildProgram err, .clGetProgramBuildInfo,
          .mallocLog (logBytes d), .clGetProgramBuildInfo, .printBuildLog], .exited 1⟩
  | buildCrash (err : Int) (herr : err ≠ 0) (hl : logStoreOk d = false)
      (he : d.clBuildProgram = err) :
    Run d n nX ⟨initTrace d n nX
      ++ [.clCreateProgramWithSource 0, .clBuildProgram err, .clGetProgramBuildInfo,
          .mallocLog (logBytes d), .clGetProgramBuildInfo], .crashed⟩
  | badNX (h64 : nX % 64 ≠ 0) :
    Run d n nX ⟨initTrace d n nX ++ buildTrace ++ [.printBadNX], .exited 1⟩
  | unable (h64 : nX % 64 = 0) (h1 : n ≠ 1) (h2 : n ≠ 2) :
    Run d n nX ⟨initTrace d n nX ++ buildTrace ++ [.printUnable], .exited 1⟩
  | launchFail (t : Nat) (err : Int) (h64 : nX % 64 = 0) (hn : n = 1 ∨ n = 2) (ht : t < 100)
      (herr : err ≠ 0) :
    Run d n nX ⟨initTrace d n nX ++ buildTrace ++ (bindEvents d n ++
      (okCalls (fun i err => .clEnqueueNDRangeKernel n i err) t
        ++ [.clEnqueueNDRangeKernel n t err, .printFail err])), .exited 1⟩
  | readFail (k : Nat) (err : Int) (h64 : nX % 64 = 0) (hn : n = 1 ∨ n = 2) (hk : k < n)
      (herr : err ≠ 0) :
    Run d n nX ⟨initTrace d n nX ++ buildTrace ++ launchTrace d n ++
      (okCalls (fun i err => .clEnqueueReadBuffer i err) k
        ++ [.clEnqueueReadBuffer k err, .printFail err]), .exited 1⟩
  | verifyFail (h64 : nX % 64 = 0) (hn : n = 1 ∨ n = 2) :
    Run d n nX ⟨initTrace d n nX ++ buildTrace ++ launchTrace d n ++
      (okCalls (fun i err => .clEnqueueReadBuffer i err) n ++ [.printFailPlain]), .exited 1⟩
  | success (h64 : nX % 64 = 0) (hn : n = 1 ∨ n = 2) :
    Run d n nX ⟨successTrace d n nX, .exited 0⟩

/-! ## Concrete devices -/

/-- A device on which every call succeeds and which runs the embedded
kernels. -/
def idealDevice : Device where
  clGetPlatformIDs := 0
  globalMemSize := 64000000000
  clCreateBuffer := fun _ _ => 0
  clEnqueueWriteBuffer := fun _ => 0
  clCreateProgramWithSource := 0
  clBuildProgram := 0
  clSetKernelArg := fun _ _ => 0
  clEnqueueNDRangeKernel := fun _ _ => 0
  clEnqueueReadBuffer := fun _ => 0
  launch := krnLaunch
  buildLogSize := 0
  hostMalloc := fun _ _ _ => true
  hostGarbage := fun _ _ => 7
  devGarbage := fun _ _ => 9

/-- A device on which every call succeeds and every kernel execution adds 1
to every element of every buffer. -/
def plusOneDevice : Device where
  clGetPlatformIDs := 0
  globalMemSize := 64000000000
  clCreateBuffer := fun _ _ => 0
  clEnqueueWriteBuffer := fun _ => 0
  clCreateProgramWithSource := 0
  clBuildProgram := 0
  clSetKernelArg := fun _ _ => 0
  clEnqueueNDRangeKernel := fun _ _ => 0
  clEnqueueReadBuffer := fun _ => 0
  launch := fun _ _ _ m c j => m c j + 1
  buildLogSize := 0
  hostMalloc := fun _ _ _ => true
  hostGarbage := fun _ _ => 7
  devGarbage := fun _ _ => 9

/-- A device that has room for one buffer only: the second `clCreateBuffer`
reports `CL_MEM_OBJECT_ALLOCATION_FAILURE` (-4). -/
def oneBufferDevice : Device where
  clGetPlatformIDs := 0
  globalMemSize := 6000000
  clCreateBuffer := fun i _ => if i = 1 then -4 else 0
  clEnqueueWriteBuffer := fun _ => 0
  clCreateProgramWithSource := 0
  clBuildProgram := 0
  clSetKernelArg := fun _ _ => 0
  clEnqueueNDRangeKernel := fun _ _ => 0
  clEnqueueReadBuffer := fun _ => 0
  launch := fun _ _ _ m c j => m c j + 1
  buildLogSize := 0
  hostMalloc := fun _ _ _ => true
  hostGarbage := fun _ _ => 7
  devGarbage := fun _ _ => 9

/-- A device on which `clSetKernelArg` reports `CL_INVALID_MEM_OBJECT` (-38)
and every other call succeeds. -/
def bindFailDevice : Device where
  clGetPlatformIDs := 0
  globalMemSize := 64000000000
  clCreateBuffer := fun _ _ => 0
  clEnqueueWriteBuffer := fun _ => 0
  clCreateProgramWithSource := 0
  clBuildProgram := 0
  clSetKernelArg := fun _ _ => -38
  clEnqueueNDRangeKernel := fun _ _ => 0
  clEnqueueReadBuffer := fun _ => 0
  launch := fun _ _ _ m c j => m c j + 1
  buildLogSize := 0
  hostMalloc := fun _ _ _ => true
  hostGarbage := fun _ _ => 7
  devGarbage := fun _ _ => 9

/-- A device on which `clSetKernelArg` reports `CL_INVALID_MEM_OBJECT` (-38)
and, the argument not being set, every launch is refused with
`CL_INVALID_KERNEL_ARGS` (-52). -/
def unboundKernelDevice : Device where
  clGetPlatformIDs := 0
  globalMemSize := 64000000000
  clCreateBuffer := fun _ _ => 0
  clEnqueueWriteBuffer := fun _ => 0
  clCreateProgramWithSource := 0
  clBuildProgram := 0
  clSetKernelArg := fun _ _ => -38
  clEnqueueNDRangeKernel := fun _ _ => -52
  clEnqueueReadBuffer := fun _ => 0
  launch := fun _ _ _ m => m
  buildLogSize := 0
  hostMalloc := fun _ _ _ => true
  hostGarbage := fun _ _ => 7
  devGarbage := fun _ _ => 9

/-- A work-item function that adds 1 to element `idx` of each of the first
`nb` chunks, `idx` being the 32-bit index computed by the kernel. -/
def IncrItem (krn : Nat → Nat → Nat → Mem → Mem) (nb : Nat) : Prop :=
  ∀ g loc l m c j,
    krn g loc l m c j = if c < nb ∧ j = workItemIdx g loc l then m c j + 1 else m c j

/-- Failures stop the run: whenever an inspected device-API call reports
failure, nothing follows that call but the diagnostics, and the process ends
with status 1 or in an undefined store. -/
def FailStop (o : Outcome) : Prop :=
  ∀ pre e post, o.trace = pre ++ e :: post → e.failed = true →
    (o.status = .exited 1 ∨ o.status = .crashed) ∧ ∀ x ∈ post, x.isDiagnostic = true

/-- The device `d` with the values returned by `clSetKernelArg` replaced by
`f`. -/
def withBindStatus (d : Device) (f : Nat → Nat → Int) : Device :=
  { d with clSetKernelArg := f }

/-! ## The flags as the specification words them -/

/-- Following the specification (`--chunk <MB>`, `--maxmem <MB>`): the argument
that follows the last occurrence of `flag` among `args`; `none` when `flag`
does not occur, or occurs only as the last argument. -/
def lastFlagArg (flag : String) : List String → Option String
  | [] => none
  | a :: rest =>
    match lastFlagArg flag rest with
    | some v => some v
    | none => if a = flag then rest.head? else none

/-- Following the specification: the integer value of the argument that
follows the last `flag`, and `dflt` when the flag is absent. -/
def flagValue (flag : String) (args : List String) (dflt : Int) : Int :=
  match lastFlagArg flag args with
  | some v => intValue v
  | none => dflt

/-! ## Loop lemmas -/

theorem checkedLoop_ok {σ : Type} (call : Nat → Int) (ev : Nat → Int → Event)
    (eff : Nat → σ → σ) (n i : Nat) (s : σ) (h : ∀ j, j < n → call (i + j) = 0) :
    checkedLoop call ev eff n i s
      = ((List.range' i n).map (fun j => ev j 0), some (i + n, effLoop eff n i s)) := by
  induction n generalizing i s with
  | zero => simp [checkedLoop, effLoop]
  | succ n ih =>
    have h0 : call i = 0 := by simpa using h 0 (Nat.succ_pos n)
    have hs : ∀ j, j < n → call (i + 1 + j) = 0 := by
      intro j hj
      have := h (j + 1) (Nat.succ_lt_succ hj)
      rwa [show i + 1 + j = i + (j + 1) by omega]
    simp [checkedLoop, effLoop, h0, ih (i + 1) (eff i s) hs, List.range'_succ]
    omega

theorem checkedLoop_fail {σ : Type} (call : Nat → Int) (ev : Nat → Int → Event)
    (eff : Nat → σ → σ) (n i k : Nat) (s : σ) (hk : k < n)
    (h : ∀ j, j < k → call (i + j) = 0) (hf : call (i + k) ≠ 0) :
    checkedLoop call ev eff n i s
      = ((List.range' i k).map (fun j => ev j 0)
          ++ [ev (i + k) (call (i + k)), .printFail (call (i + k))], none) := by
  induction n generalizing i k s with
  | zero => omega
  | succ n ih =>
    cases k with
    | zero =>
      have hf0 : call i ≠ 0 := by simpa using hf
      simp [checkedLoop, hf0]
    | succ k =>
      have h0 : call i = 0 := by simpa using h 0 (Nat.succ_pos k)
      have hs : ∀ j, j < k → call (i + 1 + j) = 0 := by
        intro j hj
        have := h (j + 1) (Nat.succ_lt_succ hj)
        rwa [show i + 1 + j = i + (j + 1) by omega]
      have hf1 : call (i + 1 + k) ≠ 0 := by
        rwa [show i + 1 + k = i + (k + 1) by omega]
      have e : i + (k + 1) = i + 1 + k := by omega
      simp [checkedLoop, h0, ih (i + 1) k (eff i s) (by omega) hs hf1, List.range'_succ, e]

/-- Either the first `n` calls from `i` all succeed or there is a first one
that fails. -/
theorem first_failure (call : Nat → Int) (n i : Nat) :
    (∀ j, j < n → call (i + j) = 0) ∨
      ∃ k, k < n ∧ (∀ j, j < k → call (i + j) = 0) ∧ call (i + k) ≠ 0 := by
  induction n with
  | zero => left; intro j hj; omega
  | succ n ih =>
    rcases ih with h | ⟨k, hk, h, hf⟩
    · by_cases hn : call (i + n) = 0
      · left
        intro j hj
        rcases Nat.lt_succ_iff_lt_or_eq.mp hj with hj | hj
        · exact h j hj
        · rw [hj]; exact hn
      · right; exact ⟨n, Nat.lt_succ_self n, h, hn⟩
    · right; exact ⟨k, Nat.lt_succ_of_lt hk, h, hf⟩

theorem storeLoop_ok (call : Nat → Int) (valid : Nat → Bool) (ev : Nat → Int → Event)
    (n i : Nat) (hv : ∀ j, j < n → valid (i + j) = true) (h : ∀ j, j < n → call (i + j) = 0) :
    storeLoop call valid ev n i = ((List.range' i n).map (fun j => ev j 0), .done (i + n)) := by
  induction n generalizing i with
  | zero => simp [storeLoop]
  | succ n ih =>
    have h0 : call i = 0 := by simpa using h 0 (Nat.succ_pos n)
    have v0 : valid i = true := by simpa using hv 0 (Nat.succ_pos n)
    have hs : ∀ j, j < n → call (i + 1 + j) = 0 := by
      intro j hj
      have := h (j + 1) (Nat.succ_lt_succ hj)
      rwa [show i + 1 + j = i + (j + 1) by omega]
    have vs : ∀ j, j < n → valid (i + 1 + j) = true := by
      intro j hj
      have := hv (j + 1) (Nat.succ_lt_succ hj)
      rwa [show i + 1 + j = i + (j + 1) by omega]
    simp [storeLoop, h0, v0, ih (i + 1) vs hs, List.range'_succ]
    omega

theorem storeLoop_fail (call : Nat → Int) (valid : Nat → Bool) (ev : Nat → Int → Event)
    (n i k : Nat) (hk : k < n) (hv : ∀ j, j ≤ k → valid (i + j) = true)
    (h : ∀ j, j < k → call (i + j) = 0) (hf : call (i + k) ≠ 0) :
    storeLoop call valid ev n i
      = ((List.range' i k).map (fun j => ev j 0)
          ++ [ev (i + k) (call (i + k)), .printFail (call (i + k))], .exited) := by
  induction n generalizing i k with
  | zero => omega
  | succ n ih =>
    have v0 : valid i = true := by simpa using hv 0 (Nat.zero_le k)
    cases k with
    | zero =>
      have hf0 : call i ≠ 0 := by simpa using hf
      simp [storeLoop, hf0, v0]
    | succ k =>
      have h0 : call i = 0 := by simpa using h 0 (Nat.succ_pos k)
      have hs : ∀ j, j < k → call (i + 1 + j) = 0 := by
        intro j hj
        have := h (j + 1) (Nat.succ_lt_succ hj)
        rwa [show i + 1 + j = i + (j + 1) by omega]
      have vs : ∀ j, j ≤ k → valid (i + 1 + j) = true := by
        intro j hj
        have := hv (j + 1) (Nat.succ_le_succ hj)
        rwa [show i + 1 + j = i + (j + 1) by omega]
      have hf1 : call (i + 1 + k) ≠ 0 := by
        rwa [show i + 1 + k = i + (k + 1) by omega]
      have e : i + (k + 1) = i + 1 + k := by omega
      simp [storeLoop, h0, v0, ih (i + 1) k (by omega) vs hs hf1, List.range'_succ, e]

theorem storeLoop_crash (call : Nat → Int) (valid : Nat → Bool) (ev : Nat → Int → Event)
    (n i k : Nat) (hk : k < n) (hv : ∀ j, j < k → valid (i + j) = true)
    (h : ∀ j, j < k → call (i + j) = 0) (hc : valid (i + k) = false) :
    storeLoop call valid ev n i
      = ((List.range' i k).map (fun j => ev j 0) ++ [ev (i + k) (call (i + k))],
          .crashed) := by
  induction n generalizing i k with
  | zero => omega
  | succ n ih =>
    cases k with
    | zero =>
      have hc0 : valid i = false := by simpa using hc
      simp [storeLoop, hc0]
    | succ k =>
      have h0 : call i = 0 := by simpa using h 0 (Nat.succ_pos k)
      have v0 : valid i = true := by simpa using hv 0 (Nat.succ_pos k)
      have hs : ∀ j, j < k → call (i + 1 + j) = 0 := by
        intro j hj
        have := h (j + 1) (Nat.succ_lt_succ hj)
        rwa [show i + 1 + j = i + (j + 1) by omega]
      have vs : ∀ j, j < k → valid (i + 1 + j) = true := by
        intro j hj
        have := hv (j + 1) (Nat.succ_lt_succ hj)
        rwa [show i + 1 + j = i + (j + 1) by omega]
      have hc1 : valid (i + 1 + k) = false := by
        rwa [show i + 1 + k = i + (k + 1) by omega]
      have e : i + (k + 1) = i + 1 + k := by omega
      simp [storeLoop, h0, v0, ih (i + 1) k (by omega) vs hs hc1, List.range'_succ, e]

/-- The first `n` iterations from `i` of a storing loop all go through, or
there is a first iteration that stores validly and fails, or a first iteration
whose store is undefined. -/
theorem store_cases (call : Nat → Int) (valid : Nat → Bool) (n i : Nat) :
    ((∀ j, j < n → valid (i + j) = true) ∧ (∀ j, j < n → call (i + j) = 0)) ∨
      (∃ k, k < n ∧ (∀ j, j ≤ k → valid (i + j) = true) ∧ (∀ j, j < k → call (i + j) = 0) ∧
        call (i + k) ≠ 0) ∨
      (∃ k, k < n ∧ (∀ j, j < k → valid (i + j) = true) ∧ (∀ j, j < k → call (i + j) = 0) ∧
        valid (i + k) = false) := by
  induction n with
  | zero => left; exact ⟨fun j hj => by omega, fun j hj => by omega⟩
  | succ n ih =>
    rcases ih with ⟨hv, h⟩ | ⟨k, hk, hv, h, hf⟩ | ⟨k, hk, hv, h, hc⟩
    · by_cases vn : valid (i + n) = true
      · by_cases hn : call (i + n) = 0
        · left
          constructor
          · intro j hj
            rcases Nat.lt_succ_iff_lt_or_eq.mp hj with hj | hj
            · exact hv j hj
            · rw [hj]; exact vn
          · intro j hj
            rcases Nat.lt_succ_iff_lt_or_eq.mp hj with hj | hj
            · exact h j hj
            · rw [hj]; exact hn
        · right; left
          refine ⟨n, Nat.lt_succ_self n, ?_, h, hn⟩
          intro j hj
          rcases Nat.lt_or_eq_of_le hj with hj | hj
          · exact hv j hj
          · rw [hj]; exact vn
      · right; right
        exact ⟨n, Nat.lt_succ_self n, hv, h, by simpa using vn⟩
    · right; left; exact ⟨k, Nat.lt_succ_of_lt hk, hv, h, hf⟩
    · right; right; exact ⟨k, Nat.lt_succ_of_lt hk, hv, h, hc⟩

theorem hostLoop_ok (valid : Nat → Bool) (n i : Nat) (hv : ∀ j, j < n → valid (i + j) = true) :
    hostLoop valid n i = ((List.range' i n).map Event.mallocHost, true) := by
  induction n generalizing i with
  | zero => simp [hostLoop]
  | succ n ih =>
    have v0 : valid i = true := by simpa using hv 0 (Nat.succ_pos n)
    have vs : ∀ j, j < n → valid (i + 1 + j) = true := by
      intro j hj
      have := hv (j + 1) (Nat.succ_lt_succ hj)
      rwa [show i + 1 + j = i + (j + 1) by omega]
    simp [hostLoop, v0, ih (i + 1) vs, List.range'_succ]

theorem hostLoop_crash (valid : Nat → Bool) (n i k : Nat) (hk : k < n)
    (hv : ∀ j, j < k → valid (i + j) = true) (hc : valid (i + k) = false) :
    hostLoop valid n i
      = ((List.range' i k).map Event.mallocHost ++ [Event.mallocHost (i + k)], false) := by
  induction n generalizing i k with
  | zero => omega
  | succ n ih =>
    cases k with
    | zero =>
      have hc0 : valid i = false := by simpa using hc
      simp [hostLoop, hc0]
    | succ k =>
      have v0 : valid i = true := by simpa using hv 0 (Nat.succ_pos k)
      have vs : ∀ j, j < k → valid (i + 1 + j) = true := by
        intro j hj
        have := hv (j + 1) (Nat.succ_lt_succ hj)
        rwa [show i + 1 + j = i + (j + 1) by omega]
      have hc1 : valid (i + 1 + k) = false := by
        rwa [show i + 1 + k = i + (k + 1) by omega]
      have e : i + (k + 1) = i + 1 + k := by omega
      simp [hostLoop, v0, ih (i + 1) k (by omega) vs hc1, List.range'_succ, e]

/-- Either the first `n` stores from `i` are all defined or there is a first
one that is not. -/
theorem first_invalid (valid : Nat → Bool) (n i : Nat) :
    (∀ j, j < n → valid (i + j) = true) ∨
      ∃ k, k < n ∧ (∀ j, j < k → valid (i + j) = true) ∧ valid (i + k) = false := by
  induction n with
  | zero => left; intro j hj; omega
  | succ n ih =>
    rcases ih with h | ⟨k, hk, h, hf⟩
    · by_cases hn : valid (i + n) = true
      · left
        intro j hj
        rcases Nat.lt_succ_iff_lt_or_eq.mp hj with hj | hj
        · exact h j hj
        · rw [hj]; exact hn
      · right; exact ⟨n, Nat.lt_succ_self n, h, by simpa using hn⟩
    · right; exact ⟨k, Nat.lt_succ_of_lt hk, h, hf⟩

/-! ## Memory lemmas -/

theorem zeroFill_apply (n : Nat) (b : Buf) (j : Nat) :
    zeroFill n b j = if j < n then 0 else b j := by
  induction n with
  | zero => simp [zeroFill]
  | succ n ih =>
    simp only [zeroFill, setElem, ih]
    by_cases h1 : j = n
    · simp [h1]
    · by_cases h2 : j < n
      · simp [h1, h2, Nat.lt_succ_of_lt h2]
      · have h3 : ¬ j < n + 1 := by omega
        simp [h1, h2, h3]

theorem hostInit_apply (d : Device) (nX n : Nat) (h : Mem) (c : Nat) :
    hostInit d nX n h c = if c < n then zeroFill nX (d.hostGarbage c) else h c := by
  induction n with
  | zero => simp [hostInit]
  | succ n ih =>
    simp only [hostInit, setBuf, ih]
    by_cases h1 : c = n
    · simp [h1]
    · by_cases h2 : c < n
      · simp [h1, h2, Nat.lt_succ_of_lt h2]
      · have h3 : ¬ c < n + 1 := by omega
        simp [h1, h2, h3]

/-- A loop whose iteration `i` rewrites chunk `i` only. -/
theorem effLoop_setBuf (f : Nat → Buf → Buf) (n i : Nat) (m : Mem) (c : Nat) :
    effLoop (fun k (x : Mem) => setBuf x k (f k (x k))) n i m c
      = if i ≤ c ∧ c < i + n then f c (m c) else m c := by
  induction n generalizing i m with
  | zero =>
    have h0 : ¬ (i ≤ c ∧ c < i) := by omega
    simp [effLoop, h0]
  | succ n ih =>
    simp only [effLoop, ih]
    by_cases h1 : c = i
    · subst h1
      have h2 : ¬ (c + 1 ≤ c ∧ c < c + 1 + n) := by omega
      have h3 : c ≤ c ∧ c < c + (n + 1) := by omega
      simp [h2, h3, setBuf]
    · by_cases h2 : i + 1 ≤ c ∧ c < i + 1 + n
      · have h3 : i ≤ c ∧ c < i + (n + 1) := by omega
        simp [h2, h3, setBuf, h1]
      · have h3 : ¬ (i ≤ c ∧ c < i + (n + 1)) := by omega
        simp [h2, h3, setBuf, h1]

/-- A loop whose every iteration applies the same function. -/
theorem effLoop_const {σ : Type} (g : σ → σ) (n i : Nat) (s : σ) :
    effLoop (fun _ x => g x) n i s = g^[n] s := by
  induction n generalizing i s with
  | zero => simp [effLoop]
  | succ n ih => simp [effLoop, ih]

theorem mismatch_eq_false (b : Buf) (n i : Nat) (h : ∀ j, j < n → b (i + j) = 100) :
    mismatch b n i = false := by
  induction n generalizing i with
  | zero => simp [mismatch]
  | succ n ih =>
    have h0 : b i = 100 := by simpa using h 0 (Nat.succ_pos n)
    have hs : ∀ j, j < n → b (i + 1 + j) = 100 := by
      intro j hj
      have := h (j + 1) (Nat.succ_lt_succ hj)
      rwa [show i + 1 + j = i + (j + 1) by omega]
    simp [mismatch, h0, ih (i + 1) hs]

theorem mismatch_eq_true (b : Buf) (n i j : Nat) (hj : j < n) (h : b (i + j) ≠ 100) :
    mismatch b n i = true := by
  induction n generalizing i j with
  | zero => omega
  | succ n ih =>
    by_cases h0 : b i = 100
    · cases j with
      | zero => exact absurd (by simpa using h0) h
      | succ j =>
        have hf : b (i + 1 + j) ≠ 100 := by
          rwa [show i + 1 + j = i + (j + 1) by omega]
        simp [mismatch, h0, ih (i + 1) j (by omega) hf]
    · simp [mismatch, h0]

theorem verifyLoop_pass (host : Mem) (nX n i : Nat)
    (h : ∀ c j, c < n → j < nX → host (i + c) j = 100) :
    verifyLoop host nX n i = some (i + n) := by
  induction n generalizing i with
  | zero => simp [verifyLoop]
  | succ n ih =>
    have h0 : mismatch (host i) nX 0 = false :=
      mismatch_eq_false _ _ _ (fun j hj => by simpa using h 0 j (Nat.succ_pos n) hj)
    have hs : ∀ c j, c < n → j < nX → host (i + 1 + c) j = 100 := by
      intro c j hc hj
      have := h (c + 1) j (Nat.succ_lt_succ hc) hj
      rwa [show i + 1 + c = i + (c + 1) by omega]
    simp [verifyLoop, h0, ih (i + 1) hs]
    omega

theorem verifyLoop_fail (host : Mem) (nX n i c j : Nat) (hc : c < n) (hj : j < nX)
    (h : host (i + c) j ≠ 100) : verifyLoop host nX n i = none := by
  induction n generalizing i c with
  | zero => omega
  | succ n ih =>
    by_cases h0 : mismatch (host i) nX 0 = true
    · simp [verifyLoop, h0]
    · cases c with
      | zero =>
        exact absurd (mismatch_eq_true (host i) nX 0 j hj (by simpa using h)) h0
      | succ c =>
        have hf : host (i + 1 + c) j ≠ 100 := by
          rwa [show i + 1 + c = i + (c + 1) by omega]
        simp [verifyLoop, h0, ih (i + 1) c (by omega) hf]

/-! ## Kernel lemmas -/

theorem incrAt_apply (m : Mem) (c0 idx c j : Nat) :
    incrAt m c0 idx c j = if c = c0 ∧ j = idx then m c j + 1 else m c j := by
  unfold incrAt setBuf setElem
  by_cases h1 : c = c0
  · subst h1
    by_cases h2 : j = idx
    · simp [h2]
    · simp [h2]
  · simp [h1]

theorem test_1chunk_incr : IncrItem test_1chunk 1 := by
  intro g loc l m c j
  simp only [test_1chunk, incrAt_apply]
  have e : c < 1 ↔ c = 0 := by omega
  simp [e]

theorem test_2chunk_incr : IncrItem test_2chunk 2 := by
  intro g loc l m c j
  simp only [test_2chunk, incrAt_apply]
  by_cases h0 : c = 0
  · subst h0; simp
  · by_cases h1 : c = 1
    · subst h1; simp
    · have e : ¬ c < 2 := by omega
      simp [h0, h1, e]

theorem workItemIdx_lt (g loc l : Nat) : workItemIdx g loc l < UINT_RANGE := by
  unfold workItemIdx UINT_RANGE
  exact Nat.mod_lt _ (by norm_num)

theorem workItemIdx_eq (g loc l : Nat) (h : g * loc + l < UINT_RANGE) :
    workItemIdx g loc l = g * loc + l := by
  unfold workItemIdx
  exact Nat.mod_eq_of_lt h

theorem runLocal_apply (krn : Nat → Nat → Nat → Mem → Mem) (nb : Nat) (hk : IncrItem krn nb)
    (g loc l : Nat) (hb : g * loc + l ≤ UINT_RANGE) (m : Mem) (c j : Nat) :
    runLocal krn g loc l m c j
      = if c < nb ∧ g * loc ≤ j ∧ j < g * loc + l then m c j + 1 else m c j := by
  induction l with
  | zero =>
    have h0 : ¬ (c < nb ∧ g * loc ≤ j ∧ j < g * loc + 0) := by omega
    simp only [runLocal, h0, if_false]
  | succ l ih =>
    have hlt : g * loc + l < UINT_RANGE := by omega
    simp only [runLocal, hk g loc l, workItemIdx_eq g loc l hlt, ih (by omega)]
    split_ifs <;> omega

theorem runGroups_apply (krn : Nat → Nat → Nat → Mem → Mem) (nb : Nat) (hk : IncrItem krn nb)
    (loc n : Nat) (hb : n * loc ≤ UINT_RANGE) (m : Mem) (c j : Nat) :
    runGroups krn loc n m c j = if c < nb ∧ j < n * loc then m c j + 1 else m c j := by
  induction n with
  | zero =>
    have h0 : ¬ (c < nb ∧ j < 0 * loc) := by omega
    simp only [runGroups, h0, if_false]
  | succ n ih =>
    have e : (n + 1) * loc = n * loc + loc := by ring
    rw [e] at hb
    simp only [runGroups, runLocal_apply krn nb hk n loc loc hb, ih (by omega), e]
    split_ifs <;> omega

/-- Elements whose index does not fit in 32 bits are never written. -/
theorem runLocal_high (krn : Nat → Nat → Nat → Mem → Mem) (nb : Nat) (hk : IncrItem krn nb)
    (g loc l : Nat) (m : Mem) (c j : Nat) (hj : UINT_RANGE ≤ j) :
    runLocal krn g loc l m c j = m c j := by
  induction l with
  | zero => rfl
  | succ l ih =>
    have hne : j ≠ workItemIdx g loc l := by
      have := workItemIdx_lt g loc l
      omega
    simp only [runLocal, hk g loc l, ih, hne, and_false, if_false]

theorem runGroups_high (krn : Nat → Nat → Nat → Mem → Mem) (nb : Nat) (hk : IncrItem krn nb)
    (loc n : Nat) (m : Mem) (c j : Nat) (hj : UINT_RANGE ≤ j) :
    runGroups krn loc n m c j = m c j := by
  induction n with
  | zero => rfl
  | succ n ih => simp only [runGroups, runLocal_high krn nb hk n loc loc _ c j hj, ih]

/-- One execution of the embedded kernel for `nb` chunks (`nb` is 1 or 2) adds
1 to every element of those chunks when `nX` is a multiple of 64 that fits
the 32-bit index. -/
theorem krnLaunch_apply (nb nX : Nat) (hnb : nb = 1 ∨ nb = 2) (h64 : nX % 64 = 0)
    (hX : nX ≤ UINT_RANGE) (m : Mem) (c j : Nat) (hc : c < nb) (hj : j < nX) :
    krnLaunch nb nX 64 m c j = m c j + 1 := by
  have hmul : nX / 64 * 64 = nX := Nat.div_mul_cancel (Nat.dvd_of_mod_eq_zero h64)
  have hb : nX / 64 * 64 ≤ UINT_RANGE := by omega
  have hin : c < nb ∧ j < nX / 64 * 64 := by omega
  rcases hnb with h | h
  · subst h
    have e := runGroups_apply test_1chunk 1 test_1chunk_incr 64 (nX / 64) hb m c j
    rw [if_pos hin] at e
    simpa [krnLaunch, ndrange] using e
  · subst h
    have e := runGroups_apply test_2chunk 2 test_2chunk_incr 64 (nX / 64) hb m c j
    rw [if_pos hin] at e
    simpa [krnLaunch, ndrange] using e

/-- No execution of the embedded kernels writes an element whose index does
not fit in 32 bits. -/
theorem krnLaunch_high (k glo loc : Nat) (m : Mem) (c j : Nat) (hj : UINT_RANGE ≤ j) :
    krnLaunch k glo loc m c j = m c j := by
  unfold krnLaunch ndrange
  split
  · exact runGroups_high test_1chunk 1 test_1chunk_incr _ _ _ _ _ hj
  · exact runGroups_high test_2chunk 2 test_2chunk_incr _ _ _ _ _ hj

theorem iterate_incr (g : Mem → Mem) (nb nX : Nat)
    (hg : ∀ m c j, c < nb → j < nX → g m c j = m c j + 1) (n : Nat) (m : Mem) (c j : Nat)
    (hc : c < nb) (hj : j < nX) : (g^[n] m) c j = m c j + n := by
  induction n with
  | zero => simp
  | succ n ih =>
    rw [Function.iterate_succ_apply', hg _ c j hc hj, ih]
    push_cast
    ring

theorem iterate_high (g : Mem → Mem) (c j : Nat) (hg : ∀ m, g m c j = m c j) (n : Nat)
    (m : Mem) : (g^[n] m) c j = m c j := by
  induction n with
  | zero => simp
  | succ n ih => rw [Function.iterate_succ_apply', hg, ih]

/-! ## The phases, case by case -/

theorem main_of_flags (d : Device) (argv : List String) (chunk maxmem : Nat)
    (hf : getFlags argv = .ok chunk maxmem) (hc : chunk ≠ 0) :
    main d argv = (allocPhase d (maxmem / chunk) (elemCount chunk)).after (acquire d) := by
  simp [main, hf, hc]

theorem allocPhase_ok (d : Device) (n nX : Nat)
    (hv : ∀ i, i < n → handleStoreOk d n i = true)
    (h : ∀ i, i < n → d.clCreateBuffer i (nX * sizeofInt) = 0) :
    allocPhase d n nX = (initPhase d n nX).after
      (.mallocDevArray n :: (okCalls (fun i err => .clCreateBuffer i (nX * sizeofInt) err) n
        ++ [.printAllocated (printedMB n nX)])) := by
  have hl := storeLoop_ok (fun i => d.clCreateBuffer i (nX * sizeofInt)) (handleStoreOk d n)
    (fun i err => Event.clCreateBuffer i (nX * sizeofInt) err) n 0
    (by intro j hj; simpa using hv j hj) (by intro j hj; simpa using h j hj)
  simp only [allocPhase, allocLoop, hl, okCalls, Nat.zero_add]

theorem allocPhase_fail (d : Device) (n nX k : Nat) (hk : k < n)
    (hv : ∀ i, i ≤ k → handleStoreOk d n i = true)
    (h : ∀ i, i < k → d.clCreateBuffer i (nX * sizeofInt) = 0)
    (hf : d.clCreateBuffer k (nX * sizeofInt) ≠ 0) :
    allocPhase d n nX = ⟨.mallocDevArray n ::
      (okCalls (fun i err => .clCreateBuffer i (nX * sizeofInt) err) k
        ++ [.clCreateBuffer k (nX * sizeofInt) (d.clCreateBuffer k (nX * sizeofInt)),
            .printFail (d.clCreateBuffer k (nX * sizeofInt))]), .exited 1⟩ := by
  have hl := storeLoop_fail (fun i => d.clCreateBuffer i (nX * sizeofInt)) (handleStoreOk d n)
    (fun i err => Event.clCreateBuffer i (nX * sizeofInt) err) n 0 k
    hk (by intro j hj; simpa using hv j hj) (by intro j hj; simpa using h j hj)
    (by simpa using hf)
  simp only [allocPhase, allocLoop, hl, okCalls, Nat.zero_add]

theorem allocPhase_crash (d : Device) (n nX k : Nat) (hk : k < n)
    (hv : ∀ i, i < k → handleStoreOk d n i = true)
    (h : ∀ i, i < k → d.clCreateBuffer i (nX * sizeofInt) = 0)
    (hc : handleStoreOk d n k = false) :
    allocPhase d n nX = ⟨.mallocDevArray n ::
      (okCalls (fun i err => .clCreateBuffer i (nX * sizeofInt) err) k
        ++ [.clCreateBuffer k (nX * sizeofInt) (d.clCreateBuffer k (nX * sizeofInt))]),
      .crashed⟩ := by
  have hl := storeLoop_crash (fun i => d.clCreateBuffer i (nX * sizeofInt)) (handleStoreOk d n)
    (fun i err => Event.clCreateBuffer i (nX * sizeofInt) err) n 0 k
    hk (by intro j hj; simpa using hv j hj) (by intro j hj; simpa using h j hj)
    (by simpa using hc)
  simp only [allocPhase, allocLoop, hl, okCalls, Nat.zero_add]

theorem hostLoop_all (d : Device) (n nX : Nat)
    (hm : ∀ i, i < n → mirrorStoreOk d n nX i = true) :
    hostLoop (mirrorStoreOk d n nX) n 0 = ((List.range n).map Event.mallocHost, true) := by
  rw [hostLoop_ok _ n 0 (by intro j hj; simpa using hm j hj), List.range_eq_range']

theorem initPhase_ok (d : Device) (n nX : Nat)
    (hm : ∀ i, i < n → mirrorStoreOk d n nX i = true)
    (h : ∀ i, i < n → d.clEnqueueWriteBuffer i = 0) :
    initPhase d n nX
      = (buildPhase d n nX n (hostInit d nX n d.hostGarbage) (devWritten d nX n)).after
        (.printNX nX :: .mallocHostArray n :: ((List.range n).map Event.mallocHost ++
          (okCalls (fun i err => .clEnqueueWriteBuffer i err) n
            ++ [.printInitialized (printedMB n nX)]))) := by
  have hl := checkedLoop_ok d.clEnqueueWriteBuffer
    (fun i err => Event.clEnqueueWriteBuffer i err)
    (fun i (m : Mem) => setBuf m i (copyElems nX (hostInit d nX n d.hostGarbage i) (m i)))
    n 0 d.devGarbage (by intro j hj; simpa using h j hj)
  simp only [initPhase, hostLoop_all d n nX hm, writeLoop, hl, okCalls, Nat.zero_add, devWritten]

theorem initPhase_fail (d : Device) (n nX k : Nat) (hk : k < n)
    (hm : ∀ i, i < n → mirrorStoreOk d n nX i = true)
    (h : ∀ i, i < k → d.clEnqueueWriteBuffer i = 0) (hf : d.clEnqueueWriteBuffer k ≠ 0) :
    initPhase d n nX = ⟨.printNX nX :: .mallocHostArray n ::
      ((List.range n).map Event.mallocHost ++
        (okCalls (fun i err => .clEnqueueWriteBuffer i err) k
          ++ [.clEnqueueWriteBuffer k (d.clEnqueueWriteBuffer k),
              .printFail (d.clEnqueueWriteBuffer k)])), .exited 1⟩ := by
  have hl := checkedLoop_fail d.clEnqueueWriteBuffer
    (fun i err => Event.clEnqueueWriteBuffer i err)
    (fun i (m : Mem) => setBuf m i (copyElems nX (hostInit d nX n d.hostGarbage i) (m i)))
    n 0 k d.devGarbage hk (by intro j hj; simpa using h j hj) (by simpa using hf)
  simp only [initPhase, hostLoop_all d n nX hm, writeLoop, hl, okCalls, Nat.zero_add]

theorem initPhase_crash (d : Device) (n nX k : Nat) (hk : k < n)
    (hm : ∀ i, i < k → mirrorStoreOk d n nX i = true)
    (hc : mirrorStoreOk d n nX k = false) :
    initPhase d n nX = ⟨.printNX nX :: .mallocHostArray n ::
      ((List.range k).map Event.mallocHost ++ [.mallocHost k]), .crashed⟩ := by
  have hl := hostLoop_crash (mirrorStoreOk d n nX) n 0 k hk
    (by intro j hj; simpa using hm j hj) (by simpa using hc)
  rw [← List.range_eq_range'] at hl
  simp only [initPhase, hl, Nat.zero_add]

theorem buildPhase_ok (d : Device) (n nX nA : Nat) (host dev : Mem)
    (h1 : d.clCreateProgramWithSource = 0) (h2 : d.clBuildProgram = 0) :
    buildPhase d n nX nA host dev = (kernelPhase d n nX nA host dev).after
      [.clCreateProgramWithSource 0, .clBuildProgram 0, .clCreateKernel 1, .clCreateKernel 2] := by
  simp [buildPhase, h1, h2]

theorem launchPhase_ok (d : Device) (k n nX nA : Nat) (host dev : Mem) (binds : List Event)
    (h : ∀ i, i < 100 → d.clEnqueueNDRangeKernel k i = 0) :
    launchPhase d k n nX nA host dev binds
      = (checkPhase d n nX nA host ((d.launch k nX 64)^[100] dev)).after
        (binds ++ (okCalls (fun i err => .clEnqueueNDRangeKernel k i err) 100
          ++ [.clFinish, .printCompleted])) := by
  have hl := checkedLoop_ok (d.clEnqueueNDRangeKernel k)
    (fun i err => Event.clEnqueueNDRangeKernel k i err)
    (fun _ (m : Mem) => d.launch k nX 64 m) 100 0 dev (by intro j hj; simpa using h j hj)
  rw [effLoop_const] at hl
  simp only [launchPhase, launchLoop, hl, okCalls]

theorem launchPhase_fail (d : Device) (k n nX nA : Nat) (host dev : Mem) (binds : List Event)
    (t : Nat) (ht : t < 100) (h : ∀ i, i < t → d.clEnqueueNDRangeKernel k i = 0)
    (hf : d.clEnqueueNDRangeKernel k t ≠ 0) :
    launchPhase d k n nX nA host dev binds
      = ⟨binds ++ (okCalls (fun i err => .clEnqueueNDRangeKernel k i err) t
          ++ [.clEnqueueNDRangeKernel k t (d.clEnqueueNDRangeKernel k t),
              .printFail (d.clEnqueueNDRangeKernel k t)]), .exited 1⟩ := by
  have hl := checkedLoop_fail (d.clEnqueueNDRangeKernel k)
    (fun i err => Event.clEnqueueNDRangeKernel k i err)
    (fun _ (m : Mem) => d.launch k nX 64 m) 100 0 t dev ht
    (by intro j hj; simpa using h j hj) (by simpa using hf)
  simp only [launchPhase, launchLoop, hl, okCalls, Nat.zero_add]

theorem hostRead_apply (nX n : Nat) (dev host : Mem) (c j : Nat) (hc : c < n) (hj : j < nX) :
    hostRead nX n dev host c j = dev c j := by
  unfold hostRead
  rw [effLoop_setBuf (fun i b => copyElems nX (dev i) b)]
  have h1 : 0 ≤ c ∧ c < 0 + n := by omega
  rw [if_pos h1]
  simp [copyElems, hj]

theorem checkPhase_read_fail (d : Device) (n nX nA : Nat) (host dev : Mem) (k : Nat) (hk : k < n)
    (h : ∀ i, i < k → d.clEnqueueReadBuffer i = 0) (hf : d.clEnqueueReadBuffer k ≠ 0) :
    checkPhase d n nX nA host dev
      = ⟨okCalls (fun i err => .clEnqueueReadBuffer i err) k
          ++ [.clEnqueueReadBuffer k (d.clEnqueueReadBuffer k),
              .printFail (d.clEnqueueReadBuffer k)], .exited 1⟩ := by
  have hl := checkedLoop_fail d.clEnqueueReadBuffer
    (fun i err => Event.clEnqueueReadBuffer i err)
    (fun i (h : Mem) => setBuf h i (copyElems nX (dev i) (h i))) n 0 k host hk
    (by intro j hj; simpa using h j hj) (by simpa using hf)
  simp only [checkPhase, readLoop, hl, okCalls, Nat.zero_add]

theorem checkPhase_pass (d : Device) (n nX nA : Nat) (host dev : Mem)
    (h : ∀ i, i < n → d.clEnqueueReadBuffer i = 0)
    (hv : ∀ c j, c < n → j < nX → dev c j = 100) :
    checkPhase d n nX nA host dev
      = ⟨okCalls (fun i err => .clEnqueueReadBuffer i err) n
          ++ (.printChecked (printedMB n nX) :: teardown nA n), .exited 0⟩ := by
  have hl := checkedLoop_ok d.clEnqueueReadBuffer
    (fun i err => Event.clEnqueueReadBuffer i err)
    (fun i (h : Mem) => setBuf h i (copyElems nX (dev i) (h i))) n 0 host
    (by intro j hj; simpa using h j hj)
  have hp := verifyLoop_pass (hostRead nX n dev host) nX n 0
    (by intro c j hc hj; simpa [hostRead_apply nX n dev host c j hc hj] using hv c j hc hj)
  simp only [hostRead, Nat.zero_add] at hp
  simp only [checkPhase, readLoop, hl, okCalls, Nat.zero_add, hp]

theorem checkPhase_mismatch (d : Device) (n nX nA : Nat) (host dev : Mem)
    (h : ∀ i, i < n → d.clEnqueueReadBuffer i = 0) (c j : Nat) (hc : c < n) (hj : j < nX)
    (hv : dev c j ≠ 100) :
    checkPhase d n nX nA host dev
      = ⟨okCalls (fun i err => .clEnqueueReadBuffer i err) n ++ [.printFailPlain],
          .exited 1⟩ := by
  have hl := checkedLoop_ok d.clEnqueueReadBuffer
    (fun i err => Event.clEnqueueReadBuffer i err)
    (fun i (h : Mem) => setBuf h i (copyElems nX (dev i) (h i))) n 0 host
    (by intro j hj; simpa using h j hj)
  have hp := verifyLoop_fail (hostRead nX n dev host) nX n 0 c j hc hj
    (by simpa [hostRead_apply nX n dev host c j hc hj] using hv)
  simp only [hostRead] at hp
  simp only [checkPhase, readLoop, hl, okCalls, Nat.zero_add, hp]

theorem devWritten_apply (d : Device) (nX n c j : Nat) (hc : c < n) (hj : j < nX) :
    devWritten d nX n c j = 0 := by
  unfold devWritten
  rw [effLoop_setBuf (fun i b => copyElems nX (hostInit d nX n d.hostGarbage i) b)]
  have h1 : 0 ≤ c ∧ c < 0 + n := by omega
  rw [if_pos h1]
  simp [copyElems, hj, hostInit_apply, hc, zeroFill_apply]

theorem kernelPhase_run (d : Device) (n nX nA : Nat) (host dev : Mem) (hn : n = 1 ∨ n = 2)
    (h64 : nX % 64 = 0) :
    kernelPhase d n nX nA host dev = launchPhase d n n nX nA host dev (bindEvents d n) := by
  rcases hn with h | h <;> subst h <;> simp [kernelPhase, h64, bindEvents]

theorem after_after (o : Outcome) (a b : List Event) :
    (o.after a).after b = o.after (b ++ a) := by
  simp [Outcome.after]

/-- A run in which allocation and initialisation succeed continues with the
build phase. -/
theorem main_to_build (d : Device) (argv : List String) (chunk maxmem : Nat)
    (hf : getFlags argv = .ok chunk maxmem) (hc : chunk ≠ 0)
    (hh : HostOk d (maxmem / chunk) (elemCount chunk))
    (ha : ∀ i, i < maxmem / chunk → d.clCreateBuffer i (elemCount chunk * sizeofInt) = 0)
    (hw : ∀ i, i < maxmem / chunk → d.clEnqueueWriteBuffer i = 0) :
    main d argv
      = (buildPhase d (maxmem / chunk) (elemCount chunk) (maxmem / chunk)
          (hostInit d (elemCount chunk) (maxmem / chunk) d.hostGarbage)
          (devWritten d (elemCount chunk) (maxmem / chunk))).after
        (initTrace d (maxmem / chunk) (elemCount chunk)) := by
  rw [main_of_flags d argv chunk maxmem hf hc,
    allocPhase_ok d _ _ (fun i hi => (hh i hi).1) ha,
    initPhase_ok d _ _ (fun i hi => (hh i hi).2) hw, after_after, after_after]
  simp [initTrace, allocTrace, hostTrace]

/-- A run in which every inspected call succeeds, the chunk count is 1 or 2
and `nX` is a multiple of 64 reaches the read-back with the device memory
`devFinal`. -/
theorem main_to_check (d : Device) (argv : List String) (chunk maxmem : Nat)
    (hd : CheckedOk d) (hf : getFlags argv = .ok chunk maxmem) (hc : chunk ≠ 0)
    (hh : HostOk d (maxmem / chunk) (elemCount chunk))
    (hn : maxmem / chunk = 1 ∨ maxmem / chunk = 2) (h64 : elemCount chunk % 64 = 0) :
    main d argv
      = (checkPhase d (maxmem / chunk) (elemCount chunk) (maxmem / chunk)
          (hostInit d (elemCount chunk) (maxmem / chunk) d.hostGarbage)
          (devFinal d (maxmem / chunk) (elemCount chunk))).after
        (initTrace d (maxmem / chunk) (elemCount chunk) ++ buildTrace
          ++ launchTrace d (maxmem / chunk)) := by
  obtain ⟨h1, h2, h3, h4, h5, _⟩ := hd
  rw [main_to_build d argv chunk maxmem hf hc hh (fun i _ => h1 i _) (fun i _ => h2 i),
    buildPhase_ok d _ _ _ _ _ h3 h4, kernelPhase_run d _ _ _ _ _ hn h64,
    launchPhase_ok d _ _ _ _ _ _ _ (fun i _ => h5 _ i), after_after, after_after]
  simp [buildTrace, launchTrace, devFinal]

/-- The fully successful run. -/
theorem main_success (d : Device) (argv : List String) (chunk maxmem : Nat)
    (hd : CheckedOk d) (hf : getFlags argv = .ok chunk maxmem) (hc : chunk ≠ 0)
    (hh : HostOk d (maxmem / chunk) (elemCount chunk))
    (hn : maxmem / chunk = 1 ∨ maxmem / chunk = 2) (h64 : elemCount chunk % 64 = 0)
    (hl : LaunchIncrements d (maxmem / chunk) (elemCount chunk)) :
    main d argv = ⟨successTrace d (maxmem / chunk) (elemCount chunk), .exited 0⟩ := by
  have hv : ∀ c j, c < maxmem / chunk → j < elemCount chunk →
      devFinal d (maxmem / chunk) (elemCount chunk) c j = 100 := by
    intro c j hcn hj
    unfold devFinal
    rw [iterate_incr _ _ _ hl 100 _ c j hcn hj, devWritten_apply d _ _ c j hcn hj]
    norm_num
  rw [main_to_check d argv chunk maxmem hd hf hc hh hn h64,
    checkPhase_pass d _ _ _ _ _ (fun i _ => hd.2.2.2.2.2 i) hv]
  simp [Outcome.after, successTrace]

/-- The run that fails verification. -/
theorem main_mismatch (d : Device) (argv : List String) (chunk maxmem : Nat)
    (hd : CheckedOk d) (hf : getFlags argv = .ok chunk maxmem) (hc : chunk ≠ 0)
    (hh : HostOk d (maxmem / chunk) (elemCount chunk))
    (hn : maxmem / chunk = 1 ∨ maxmem / chunk = 2) (h64 : elemCount chunk % 64 = 0)
    (c j : Nat) (hcn : c < maxmem / chunk) (hj : j < elemCount chunk)
    (hv : devFinal d (maxmem / chunk) (elemCount chunk) c j ≠ 100) :
    main d argv = ⟨initTrace d (maxmem / chunk) (elemCount chunk) ++ buildTrace
      ++ launchTrace d (maxmem / chunk)
      ++ (okCalls (fun i err => .clEnqueueReadBuffer i err) (maxmem / chunk)
        ++ [.printFailPlain]), .exited 1⟩ := by
  rw [main_to_check d argv chunk maxmem hd hf hc hh hn h64,
    checkPhase_mismatch d _ _ _ _ _ (fun i _ => hd.2.2.2.2.2 i) c j hcn hj hv]
  simp [Outcome.after]

/-! ## Every run has one of the shapes of `Run` -/

theorem verifyLoop_some (host : Mem) (nX n i r : Nat) (h : verifyLoop host nX n i = some r) :
    r = i + n := by
  induction n generalizing i with
  | zero => simp [verifyLoop] at h; omega
  | succ n ih =>
    by_cases h0 : mismatch (host i) nX 0 = true
    · simp [verifyLoop, h0] at h
    · simp only [verifyLoop, h0] at h
      have := ih (i + 1) (by simpa using h)
      omega

theorem checkPhase_cases (d : Device) (n nX nA : Nat) (host dev : Mem)
    (h : ∀ i, i < n → d.clEnqueueReadBuffer i = 0) :
    checkPhase d n nX nA host dev
        = ⟨okCalls (fun i err => .clEnqueueReadBuffer i err) n ++ [.printFailPlain], .exited 1⟩ ∨
      checkPhase d n nX nA host dev
        = ⟨okCalls (fun i err => .clEnqueueReadBuffer i err) n
            ++ (.printChecked (printedMB n nX) :: teardown nA n), .exited 0⟩ := by
  have hl := checkedLoop_ok d.clEnqueueReadBuffer
    (fun i err => Event.clEnqueueReadBuffer i err)
    (fun i (h : Mem) => setBuf h i (copyElems nX (dev i) (h i))) n 0 host
    (by intro j hj; simpa using h j hj)
  cases hv : verifyLoop (hostRead nX n dev host) nX n 0 with
  | none =>
    left
    simp only [hostRead] at hv
    simp only [checkPhase, readLoop, hl, okCalls, Nat.zero_add, hv]
  | some r =>
    right
    have hr := verifyLoop_some _ _ _ _ _ hv
    simp only [Nat.zero_add] at hr
    subst hr
    simp only [hostRead] at hv
    simp only [checkPhase, readLoop, hl, okCalls, Nat.zero_add, hv]

theorem run_of_build (d : Device) (n nX : Nat) (host dev : Mem) :
    Run d n nX ((buildPhase d n nX n host dev).after (initTrace d n nX)) := by
  by_cases h1 : d.clCreateProgramWithSource = 0
  swap
  · have := @Run.createFail d n nX _ h1
    simpa [buildPhase, h1, Outcome.after] using this
  by_cases h2 : d.clBuildProgram = 0
  swap
  · by_cases hl : logStoreOk d = true
    · have := @Run.buildFail d n nX _ h2 hl
      simpa [buildPhase, h1, h2, hl, Outcome.after] using this
    · have hl2 : logStoreOk d = false := by simpa using hl
      have := @Run.buildCrash d n nX _ h2 hl2 rfl
      simpa [buildPhase, h1, h2, hl2, Outcome.after] using this
  rw [buildPhase_ok d n nX n host dev h1 h2, after_after]
  by_cases h64 : nX % 64 = 0
  swap
  · have := @Run.badNX d n nX h64
    simpa [kernelPhase, h64, Outcome.after, buildTrace] using this
  by_cases hn : n = 1 ∨ n = 2
  swap
  · have hn1 : n ≠ 1 := fun h => hn (Or.inl h)
    have hn2 : n ≠ 2 := fun h => hn (Or.inr h)
    have := @Run.unable d n nX h64 hn1 hn2
    simpa [kernelPhase, h64, hn1, hn2, Outcome.after, buildTrace] using this
  rw [kernelPhase_run d n nX n host dev hn h64]
  rcases first_failure (d.clEnqueueNDRangeKernel n) 100 0 with hl | ⟨t, ht, hl, hf⟩
  · rw [launchPhase_ok d n n nX n host dev _ (by intro i hi; simpa using hl i hi), after_after]
    rcases first_failure d.clEnqueueReadBuffer n 0 with hr | ⟨k, hk, hr, hf⟩
    · rcases checkPhase_cases d n nX n host ((d.launch n nX 64)^[100] dev)
        (by intro i hi; simpa using hr i hi) with hc | hc
      · have := @Run.verifyFail d n nX h64 hn
        rw [hc]
        simpa [Outcome.after, buildTrace, launchTrace] using this
      · have := @Run.success d n nX h64 hn
        rw [hc]
        simpa [Outcome.after, buildTrace, launchTrace, successTrace] using this
    · have := @Run.readFail d n nX k _ h64 hn hk hf
      rw [checkPhase_read_fail d n nX n host _ k hk (by intro i hi; simpa using hr i hi)
        (by simpa using hf)]
      simpa [Outcome.after, buildTrace, launchTrace] using this
  · have := @Run.launchFail d n nX t _ h64 hn ht hf
    rw [launchPhase_fail d n n nX n host dev _ t ht (by intro i hi; simpa using hl i hi)
      (by simpa using hf)]
    simpa [Outcome.after, buildTrace] using this

theorem run_of_alloc (d : Device) (n nX : Nat) :
    Run d n nX ((allocPhase d n nX).after (acquire d)) := by
  rcases store_cases (fun i => d.clCreateBuffer i (nX * sizeofInt)) (handleStoreOk d n) n 0
    with ⟨hv, ha⟩ | ⟨k, hk, hv, ha, hf⟩ | ⟨k, hk, hv, ha, hc⟩
  · rw [allocPhase_ok d n nX (by intro i hi; simpa using hv i hi)
      (by intro i hi; simpa using ha i hi), after_after]
    rcases first_invalid (mirrorStoreOk d n nX) n 0 with hm | ⟨k, hk, hm, hc⟩
    · have hm2 : ∀ i, i < n → mirrorStoreOk d n nX i = true := by
        intro i hi; simpa using hm i hi
      rcases first_failure d.clEnqueueWriteBuffer n 0 with hw | ⟨k, hk, hw, hf⟩
      · rw [initPhase_ok d n nX hm2 (by intro i hi; simpa using hw i hi), after_after]
        have := run_of_build d n nX (hostInit d nX n d.hostGarbage) (devWritten d nX n)
        simpa [initTrace, allocTrace, hostTrace] using this
      · have := @Run.writeFail d n nX k _ hk hf
        rw [initPhase_fail d n nX k hk hm2 (by intro i hi; simpa using hw i hi)
          (by simpa using hf)]
        simpa [Outcome.after, allocTrace, hostTrace] using this
    · have := @Run.hostCrash d n nX k hk (by simpa using hc)
      rw [initPhase_crash d n nX k hk (by intro i hi; simpa using hm i hi) (by simpa using hc)]
      simpa [Outcome.after, allocTrace] using this
  · have := @Run.allocFail d n nX k _ hk hf
    rw [allocPhase_fail d n nX k hk (by intro i hi; simpa using hv i hi)
      (by intro i hi; simpa using ha i hi) (by simpa using hf)]
    simpa [Outcome.after] using this
  · have := @Run.allocCrash d n nX k (d.clCreateBuffer k (nX * sizeofInt)) hk (by simpa using hc)
    rw [allocPhase_crash d n nX k hk (by intro i hi; simpa using hv i hi)
      (by intro i hi; simpa using ha i hi) (by simpa using hc)]
    simpa [Outcome.after] using this

/-- A run whose host allocations all take their stores does not end in an
undefined store. -/
theorem run_not_crashed (d : Device) (n nX : Nat) (o : Outcome) (h : Run d n nX o)
    (hh : HostOk d n nX) (hg : d.clBuildProgram = 0 ∨ logStoreOk d = true) :
    o.status ≠ .crashed := by
  cases h with
  | allocCrash k err hk hv =>
    have := (hh k hk).1
    rw [hv] at this
    exact absurd this (by decide)
  | hostCrash k hk hv =>
    have := (hh k hk).2
    rw [hv] at this
    exact absurd this (by decide)
  | buildCrash err herr hl he =>
    rcases hg with hg | hg
    · exact absurd (he.symm.trans hg) herr
    · rw [hl] at hg
      exact absurd hg (by decide)
  | allocFail => simp
  | writeFail => simp
  | createFail => simp
  | buildFail => simp
  | badNX => simp
  | unable => simp
  | launchFail => simp
  | readFail => simp
  | verifyFail => simp
  | success => simp

/-- Every run that gets past the flags and the division has one of the shapes
of `Run`. -/
theorem main_run (d : Device) (argv : List String) (chunk maxmem : Nat)
    (hf : getFlags argv = .ok chunk maxmem) (hc : chunk ≠ 0) :
    Run d (maxmem / chunk) (elemCount chunk) (main d argv) := by
  rw [main_of_flags d argv chunk maxmem hf hc]
  exact run_of_alloc d _ _

theorem main_bad_nX (d : Device) (argv : List String) (chunk maxmem : Nat)
    (hd : CheckedOk d) (hf : getFlags argv = .ok chunk maxmem) (hc : chunk ≠ 0)
    (hh : HostOk d (maxmem / chunk) (elemCount chunk))
    (h64 : elemCount chunk % 64 ≠ 0) :
    main d argv = ⟨initTrace d (maxmem / chunk) (elemCount chunk) ++ buildTrace ++ [.printBadNX],
      .exited 1⟩ := by
  obtain ⟨h1, h2, h3, h4, _, _⟩ := hd
  rw [main_to_build d argv chunk maxmem hf hc hh (fun i _ => h1 i _) (fun i _ => h2 i),
    buildPhase_ok d _ _ _ _ _ h3 h4, after_after]
  simp [kernelPhase, h64, Outcome.after, buildTrace]

/-! ## Events of the trace pieces -/

theorem mem_okCalls (ev : Nat → Int → Event) (n : Nat) (e : Event) :
    e ∈ okCalls ev n ↔ ∃ i, i < n ∧ ev i 0 = e := by
  simp [okCalls, List.mem_range']

theorem forall_okCalls (P : Event → Prop) (ev : Nat → Int → Event) (n : Nat) :
    (∀ e ∈ okCalls ev n, P e) ↔ ∀ i, i < n → P (ev i 0) := by
  simp [mem_okCalls]

theorem forall_acquire (P : Event → Prop) (d : Device) :
    (∀ e ∈ acquire d, P e) ↔
      P (.clGetPlatformIDs d.clGetPlatformIDs) ∧ P .clGetDeviceIDs ∧ P .clCreateContext ∧
        P .clCreateCommandQueue ∧ P .clGetDeviceInfo ∧
        P (.printContext (d.globalMemSize / 1000000)) := by
  simp [acquire]

theorem forall_allocTrace (P : Event → Prop) (d : Device) (n nX : Nat) :
    (∀ e ∈ allocTrace d n nX, P e) ↔
      (∀ e ∈ acquire d, P e) ∧ P (.mallocDevArray n) ∧
        (∀ i, i < n → P (.clCreateBuffer i (nX * sizeofInt) 0)) ∧
        P (.printAllocated (printedMB n nX)) := by
  simp only [allocTrace, List.forall_mem_append, List.forall_mem_cons, forall_okCalls,
    List.not_mem_nil, IsEmpty.forall_iff, implies_true, and_true]

theorem forall_hostTrace (P : Event → Prop) (n nX : Nat) :
    (∀ e ∈ hostTrace n nX, P e) ↔
      P (.printNX nX) ∧ P (.mallocHostArray n) ∧ ∀ i, i < n → P (.mallocHost i) := by
  simp [hostTrace]

theorem forall_initTrace (P : Event → Prop) (d : Device) (n nX : Nat) :
    (∀ e ∈ initTrace d n nX, P e) ↔
      (∀ e ∈ allocTrace d n nX, P e) ∧ (∀ e ∈ hostTrace n nX, P e) ∧
        (∀ i, i < n → P (.clEnqueueWriteBuffer i 0)) ∧
        P (.printInitialized (printedMB n nX)) := by
  simp only [initTrace, List.forall_mem_append, forall_okCalls, List.forall_mem_singleton]

theorem forall_bindEvents (P : Event → Prop) (d : Device) (n : Nat)
    (h : ∀ k a r, P (.clSetKernelArg k a r)) : ∀ e ∈ bindEvents d n, P e := by
  unfold bindEvents
  split <;> simp [h]

theorem forall_launchTrace (P : Event → Prop) (d : Device) (n : Nat)
    (h : ∀ k a r, P (.clSetKernelArg k a r)) (hl : ∀ i, P (.clEnqueueNDRangeKernel n i 0))
    (h1 : P .clFinish) (h2 : P .printCompleted) : ∀ e ∈ launchTrace d n, P e := by
  simp only [launchTrace, List.forall_mem_append, forall_okCalls, List.forall_mem_cons,
    List.not_mem_nil, IsEmpty.forall_iff, implies_true, and_true]
  exact ⟨forall_bindEvents P d n h, fun i _ => hl i, h1, h2⟩

theorem forall_teardown (P : Event → Prop) (a n : Nat) (hf : ∀ i, P (.freeHost i))
    (hr : ∀ i, P (.clReleaseMemObject i)) (h1 : P .freeHostArray) (h2 : P .freeDevArray)
    (h3 : P .clReleaseCommandQueue) (h4 : P .clReleaseContext) : ∀ e ∈ teardown a n, P e := by
  simp only [teardown, List.forall_mem_append, List.forall_mem_cons,
    List.not_mem_nil, IsEmpty.forall_iff, implies_true, and_true, List.mem_map,
    forall_exists_index, and_imp]
  refine ⟨?_, ?_, h1, h2, h3, h4⟩
  · intro e i _ h; rw [← h]; exact hf i
  · intro e i _ h; rw [← h]; exact hr i

theorem initTrace_clean (d : Device) (n nX : Nat) : ∀ e ∈ initTrace d n nX, e.failed = false := by
  rw [forall_initTrace, forall_allocTrace, forall_hostTrace, forall_acquire]
  simp [Event.failed]

theorem buildTrace_clean : ∀ e ∈ buildTrace, e.failed = false := by
  simp [buildTrace, Event.failed]

theorem launchTrace_clean (d : Device) (n : Nat) : ∀ e ∈ launchTrace d n, e.failed = false := by
  apply forall_launchTrace <;> simp [Event.failed]

theorem initTrace_quiet (d : Device) (n nX : Nat) :
    ∀ e ∈ initTrace d n nX,
      e.isLaunch = false ∧ e.isCheck = false ∧ e.isTeardown = false := by
  rw [forall_initTrace, forall_allocTrace, forall_hostTrace, forall_acquire]
  simp [Event.isLaunch, Event.isCheck, Event.isTeardown]

/-! ## Failures stop the run -/

theorem diagnostic_not_failed (e : Event) (h : e.isDiagnostic = true) : e.failed = false := by
  cases e <;> simp [Event.isDiagnostic] at h <;> simp [Event.failed]

theorem failStop_clean (t : List Event) (st : Status) (h : ∀ x ∈ t, x.failed = false) :
    FailStop ⟨t, st⟩ := by
  intro pre e post ht he
  have hm : e ∈ t := by
    simp only at ht
    rw [ht]; simp
  rw [h e hm] at he
  exact absurd he (by decide)

theorem failStop_fail (t : List Event) (st : Status) (pre1 : List Event) (e1 : Event)
    (post1 : List Event) (hst : st = .exited 1 ∨ st = .crashed)
    (ht : t = pre1 ++ e1 :: post1)
    (hpre : ∀ x ∈ pre1, x.failed = false) (hpost : ∀ x ∈ post1, x.isDiagnostic = true) :
    FailStop ⟨t, st⟩ := by
  intro pre e post h he
  refine ⟨hst, ?_⟩
  simp only at h
  rw [ht] at h
  rcases List.append_eq_append_iff.mp h with ⟨a, h1, h2⟩ | ⟨c, h1, h2⟩
  · cases a with
    | nil =>
      simp only [List.nil_append, List.cons.injEq] at h2
      rw [← h2.2]; exact hpost
    | cons x a =>
      simp only [List.cons_append, List.cons.injEq] at h2
      have hm : e ∈ post1 := by rw [h2.2]; simp
      have := diagnostic_not_failed e (hpost e hm)
      rw [this] at he
      exact absurd he (by decide)
  · cases c with
    | nil =>
      simp only [List.nil_append, List.cons.injEq] at h2
      rw [h2.2]; exact hpost
    | cons x c =>
      simp only [List.cons_append, List.cons.injEq] at h2
      have hm : e ∈ pre1 := by rw [h1, h2.1]; simp
      rw [hpre e hm] at he
      exact absurd he (by decide)

theorem run_failStop (d : Device) (n nX : Nat) (o : Outcome) (h : Run d n nX o) :
    FailStop o := by
  have hi := initTrace_clean d n nX
  have hb := buildTrace_clean
  have hl := launchTrace_clean d n
  have hi2 := hi
  rw [forall_initTrace] at hi2
  have ha := hi2.1
  cases h with
  | allocFail k err hk herr =>
    rw [forall_allocTrace] at ha
    apply failStop_fail _ _ (acquire d ++ (.mallocDevArray n ::
      okCalls (fun i err => .clCreateBuffer i (nX * sizeofInt) err) k))
      (.clCreateBuffer k (nX * sizeofInt) err) [.printFail err] (Or.inl rfl) (by simp)
    · simp only [List.forall_mem_append, List.forall_mem_cons, forall_okCalls]
      exact ⟨ha.1, ha.2.1, fun i _ => rfl⟩
    · simp [Event.isDiagnostic]
  | writeFail k err hk herr =>
    apply failStop_fail _ _ (allocTrace d n nX ++ (hostTrace n nX ++
      okCalls (fun i err => .clEnqueueWriteBuffer i err) k))
      (.clEnqueueWriteBuffer k err) [.printFail err] (Or.inl rfl) (by simp)
    · simp only [List.forall_mem_append, forall_okCalls]
      exact ⟨ha, hi2.2.1, fun i _ => rfl⟩
    · simp [Event.isDiagnostic]
  | createFail err herr =>
    apply failStop_fail _ _ (initTrace d n nX) (.clCreateProgramWithSource err)
      [.printCreateProgram err] (Or.inl rfl) (by simp)
    · exact hi
    · simp [Event.isDiagnostic]
  | buildFail err herr _ =>
    apply failStop_fail _ _ (initTrace d n nX ++ [.clCreateProgramWithSource 0])
      (.clBuildProgram err)
      [.clGetProgramBuildInfo, .mallocLog (logBytes d), .clGetProgramBuildInfo,
        .printBuildLog] (Or.inl rfl) (by simp)
    · simp only [List.forall_mem_append, List.forall_mem_singleton]
      exact ⟨hi, rfl⟩
    · simp [Event.isDiagnostic]
  | buildCrash err herr _ =>
    apply failStop_fail _ _ (initTrace d n nX ++ [.clCreateProgramWithSource 0])
      (.clBuildProgram err)
      [.clGetProgramBuildInfo, .mallocLog (logBytes d), .clGetProgramBuildInfo]
      (Or.inr rfl) (by simp)
    · simp only [List.forall_mem_append, List.forall_mem_singleton]
      exact ⟨hi, rfl⟩
    · simp [Event.isDiagnostic]
  | allocCrash k err hk hv =>
    rw [forall_allocTrace] at ha
    by_cases he : err = 0
    · apply failStop_clean
      simp only [List.forall_mem_append, List.forall_mem_cons, forall_okCalls,
        List.forall_mem_singleton]
      exact ⟨ha.1, ha.2.1, fun i _ => rfl, by simp [Event.failed, he]⟩
    · apply failStop_fail _ _ (acquire d ++ (.mallocDevArray n ::
        okCalls (fun i err => .clCreateBuffer i (nX * sizeofInt) err) k))
        (.clCreateBuffer k (nX * sizeofInt) err) [] (Or.inr rfl) (by simp)
      · simp only [List.forall_mem_append, List.forall_mem_cons, forall_okCalls]
        exact ⟨ha.1, ha.2.1, fun i _ => rfl⟩
      · simp
  | hostCrash k hk hv =>
    apply failStop_clean
    simp only [List.forall_mem_append, List.forall_mem_cons, List.forall_mem_singleton,
      List.mem_map, forall_exists_index, and_imp]
    refine ⟨ha, rfl, rfl, ?_, rfl, by simp⟩
    intro e i _ h
    rw [← h]; rfl
  | badNX _ =>
    apply failStop_clean
    simp only [List.forall_mem_append, List.forall_mem_singleton]
    exact ⟨⟨hi, hb⟩, rfl⟩
  | unable _ _ _ =>
    apply failStop_clean
    simp only [List.forall_mem_append, List.forall_mem_singleton]
    exact ⟨⟨hi, hb⟩, rfl⟩
  | launchFail t err _ _ ht herr =>
    apply failStop_fail _ _ (initTrace d n nX ++ buildTrace ++ (bindEvents d n ++
      okCalls (fun i err => .clEnqueueNDRangeKernel n i err) t))
      (.clEnqueueNDRangeKernel n t err) [.printFail err] (Or.inl rfl) (by simp)
    · simp only [List.forall_mem_append, forall_okCalls]
      exact ⟨⟨hi, hb⟩, forall_bindEvents _ d n (fun _ _ _ => rfl), fun i _ => rfl⟩
    · simp [Event.isDiagnostic]
  | readFail k err _ _ hk herr =>
    apply failStop_fail _ _ (initTrace d n nX ++ buildTrace ++ launchTrace d n ++
      okCalls (fun i err => .clEnqueueReadBuffer i err) k)
      (.clEnqueueReadBuffer k err) [.printFail err] (Or.inl rfl) (by simp)
    · simp only [List.forall_mem_append, forall_okCalls]
      exact ⟨⟨⟨hi, hb⟩, hl⟩, fun i _ => rfl⟩
    · simp [Event.isDiagnostic]
  | verifyFail _ _ =>
    apply failStop_clean
    simp only [List.forall_mem_append, List.forall_mem_singleton, forall_okCalls]
    exact ⟨⟨⟨hi, hb⟩, hl⟩, fun i _ => rfl, rfl⟩
  | success _ _ =>
    apply failStop_clean
    simp only [successTrace, List.forall_mem_append, List.forall_mem_cons, forall_okCalls]
    refine ⟨⟨⟨hi, hb⟩, hl⟩, fun i _ => rfl, rfl, ?_⟩
    apply forall_teardown <;> simp [Event.failed]

theorem main_failStop (d : Device) (argv : List String) : FailStop (main d argv) := by
  cases hf : getFlags argv with
  | usage =>
    have : main d argv = ⟨[.printUsage], .exited 1⟩ := by simp [main, hf]
    rw [this]
    exact failStop_clean _ _ (by simp [Event.failed])
  | badRead i =>
    have : main d argv = ⟨[], .crashed⟩ := by simp [main, hf]
    rw [this]
    exact failStop_clean _ _ (by simp)
  | ok chunk maxmem =>
    by_cases hc : chunk = 0
    · have : main d argv = ⟨[], .crashed⟩ := by simp [main, hf, hc]
      rw [this]
      exact failStop_clean _ _ (by simp)
    · exact run_failStop d _ _ _ (main_run d argv chunk maxmem hf hc)

/-! ## The status returned by `clSetKernelArg` is not used -/

theorem launchPhase_status (d : Device) (k n nX nA : Nat) (host dev : Mem)
    (b1 b2 : List Event) :
    (launchPhase d k n nX nA host dev b1).status = (launchPhase d k n nX nA host dev b2).status := by
  unfold launchPhase
  split <;> rfl

theorem launchPhase_withBind (d : Device) (f : Nat → Nat → Int) (k n nX nA : Nat)
    (host dev : Mem) (b : List Event) :
    launchPhase (withBindStatus d f) k n nX nA host dev b = launchPhase d k n nX nA host dev b :=
  rfl

theorem kernelPhase_status (d : Device) (f : Nat → Nat → Int) (n nX nA : Nat)
    (host dev : Mem) :
    (kernelPhase (withBindStatus d f) n nX nA host dev).status
      = (kernelPhase d n nX nA host dev).status := by
  unfold kernelPhase
  split_ifs
  · rfl
  · rw [launchPhase_withBind]; exact launchPhase_status _ _ _ _ _ _ _ _ _
  · rw [launchPhase_withBind]; exact launchPhase_status _ _ _ _ _ _ _ _ _
  · rfl

theorem buildPhase_status (d : Device) (f : Nat → Nat → Int) (n nX nA : Nat)
    (host dev : Mem) :
    (buildPhase (withBindStatus d f) n nX nA host dev).status
      = (buildPhase d n nX nA host dev).status := by
  unfold buildPhase
  have e1 : (withBindStatus d f).clCreateProgramWithSource = d.clCreateProgramWithSource := rfl
  have e2 : (withBindStatus d f).clBuildProgram = d.clBuildProgram := rfl
  have e3 : logStoreOk (withBindStatus d f) = logStoreOk d := rfl
  rw [e1, e2, e3]
  split_ifs
  · rfl
  · rfl
  · rfl
  · exact kernelPhase_status d f n nX nA host dev

theorem hostInit_withBind (d : Device) (f : Nat → Nat → Int) (nX n : Nat) (h : Mem) :
    hostInit (withBindStatus d f) nX n h = hostInit d nX n h := by
  induction n with
  | zero => rfl
  | succ n ih =>
    simp only [hostInit, ih]
    rfl

theorem initPhase_status (d : Device) (f : Nat → Nat → Int) (n nX : Nat) :
    (initPhase (withBindStatus d f) n nX).status = (initPhase d n nX).status := by
  unfold initPhase
  have e : writeLoop (withBindStatus d f) nX n
      (hostInit (withBindStatus d f) nX n (withBindStatus d f).hostGarbage)
      (withBindStatus d f).devGarbage
      = writeLoop d nX n (hostInit d nX n d.hostGarbage) d.devGarbage := by
    rw [hostInit_withBind]
    rfl
  have e0 : hostLoop (mirrorStoreOk (withBindStatus d f) n nX) n 0
      = hostLoop (mirrorStoreOk d n nX) n 0 := rfl
  rw [e, e0]
  split
  · rfl
  · split
    · rfl
    · rw [hostInit_withBind]
      exact buildPhase_status d f _ _ _ _ _

theorem allocPhase_status (d : Device) (f : Nat → Nat → Int) (n nX : Nat) :
    (allocPhase (withBindStatus d f) n nX).status = (allocPhase d n nX).status := by
  unfold allocPhase
  have e : allocLoop (withBindStatus d f) nX n = allocLoop d nX n := rfl
  rw [e]
  split
  · rfl
  · rfl
  · exact initPhase_status d f _ _

/-- The exit status of a run does not depend on what `clSetKernelArg`
returns. -/
theorem main_status_withBind (d : Device) (f : Nat → Nat → Int) (argv : List String) :
    (main (withBindStatus d f) argv).status = (main d argv).status := by
  unfold main
  split
  · rfl
  · rfl
  · split_ifs
    · rfl
    · exact allocPhase_status d f _ _

/-! ## Counting allocations and releases -/

theorem flagLoop_help (i : Nat) (rest : List String) (c m : Nat) (h : "--help" ∈ rest) :
    flagLoop i rest c m = .usage := by
  induction rest generalizing i c m with
  | nil => simp at h
  | cons a rest ih =>
    by_cases ha : a = "--help"
    · simp [flagLoop, ha]
    · have hr : "--help" ∈ rest := by
        rcases List.mem_cons.mp h with h | h
        · exact absurd h.symm ha
        · exact h
      cases rest with
      | nil => simp at hr
      | cons v r =>
        rw [flagLoop]
        simp only [ha, if_false]
        split_ifs <;> exact ih _ _ _ hr

theorem toBIGINT_natCast (c : Nat) (hc : c < 2 ^ 64) : toBIGINT (c : Int) = c := by
  unfold toBIGINT BIGINT_RANGE
  have : ((c : Int) % ((2 ^ 64 : Nat) : Int)) = ((c % 2 ^ 64 : Nat) : Int) := by
    exact (Int.natCast_mod c (2 ^ 64)).symm
  rw [this, Int.toNat_natCast, Nat.mod_eq_of_lt hc]

theorem flagLoop_eq (i : Nat) (rest : List String) (c m : Nat)
    (hh : "--help" ∉ rest) (h1 : rest.getLast? ≠ some "--chunk")
    (h2 : rest.getLast? ≠ some "--maxmem") :
    flagLoop i rest c m
      = .ok ((lastFlagArg "--chunk" rest).elim c (fun v => toBIGINT (atoi v)))
          ((lastFlagArg "--maxmem" rest).elim m (fun v => toBIGINT (atoi v))) := by
  induction rest generalizing i c m with
  | nil => simp [flagLoop, lastFlagArg]
  | cons a rest ih =>
    have ha : a ≠ "--help" := fun h => hh (by simp [h])
    have hr : "--help" ∉ rest := fun h => hh (List.mem_cons_of_mem _ h)
    cases rest with
    | nil =>
      have hc : a ≠ "--chunk" := fun h => h1 (by simp [h])
      have hm : a ≠ "--maxmem" := fun h => h2 (by simp [h])
      simp [flagLoop, lastFlagArg, ha, hc, hm]
    | cons v r =>
      have h1r : (v :: r).getLast? ≠ some "--chunk" := by
        simpa [List.getLast?_cons_cons] using h1
      have h2r : (v :: r).getLast? ≠ some "--maxmem" := by
        simpa [List.getLast?_cons_cons] using h2
      by_cases hc : a = "--chunk"
      · have hm : a ≠ "--maxmem" := by rw [hc]; decide
        rw [flagLoop]
        simp only [ha, hc, if_true, if_false]
        rw [ih _ _ _ hr h1r h2r]
        have e1 : lastFlagArg "--chunk" ("--chunk" :: v :: r)
            = match lastFlagArg "--chunk" (v :: r) with
              | some w => some w
              | none => some v := by
          rw [lastFlagArg]; simp
        have e2 : lastFlagArg "--maxmem" ("--chunk" :: v :: r)
            = lastFlagArg "--maxmem" (v :: r) := by
          rw [lastFlagArg]
          have : ¬ ("--chunk" = "--maxmem") := by decide
          simp only [this, if_false]
          cases lastFlagArg "--maxmem" (v :: r) <;> rfl
        rw [e1, e2]
        cases lastFlagArg "--chunk" (v :: r) <;> rfl
      · by_cases hm : a = "--maxmem"
        · rw [flagLoop]
          simp only [ha, hm, if_true, if_false]
          have hne : ¬ ("--maxmem" = "--help") := by decide
          have hne2 : ¬ ("--maxmem" = "--chunk") := by decide
          simp only [hne, hne2, if_false]
          rw [ih _ _ _ hr h1r h2r]
          have e1 : lastFlagArg "--maxmem" ("--maxmem" :: v :: r)
              = match lastFlagArg "--maxmem" (v :: r) with
                | some w => some w
                | none => some v := by
            rw [lastFlagArg]; simp
          have e2 : lastFlagArg "--chunk" ("--maxmem" :: v :: r)
              = lastFlagArg "--chunk" (v :: r) := by
            rw [lastFlagArg]
            simp only [hne2, if_false]
            cases lastFlagArg "--chunk" (v :: r) <;> rfl
          rw [e1, e2]
          cases lastFlagArg "--maxmem" (v :: r) <;> rfl
        · rw [flagLoop]
          simp only [ha, hc, hm, if_false]
          rw [ih _ _ _ hr h1r h2r]
          have e1 : lastFlagArg "--chunk" (a :: v :: r) = lastFlagArg "--chunk" (v :: r) := by
            rw [lastFlagArg]
            simp only [hc, if_false]
            cases lastFlagArg "--chunk" (v :: r) <;> rfl
          have e2 : lastFlagArg "--maxmem" (a :: v :: r) = lastFlagArg "--maxmem" (v :: r) := by
            rw [lastFlagArg]
            simp only [hm, if_false]
            cases lastFlagArg "--maxmem" (v :: r) <;> rfl
          rw [e1, e2]

/-! ## Runs on concrete devices and with the embedded kernels -/

theorem idealDevice_checkedOk : CheckedOk idealDevice := by
  simp [CheckedOk, idealDevice]

/-- A run whose element count is not a multiple of 64 ends with status 1 or
in an undefined store, and holds no launch, no read-back or verification and
no teardown event. -/
theorem run_quiet (d : Device) (n nX : Nat) (o : Outcome) (h : Run d n nX o)
    (h64 : nX % 64 ≠ 0) :
    (o.status = .exited 1 ∨ o.status = .crashed) ∧
      ∀ e ∈ o.trace, e.isLaunch = false ∧ e.isCheck = false ∧ e.isTeardown = false := by
  have hq := initTrace_quiet d n nX
  have hi := hq
  rw [forall_initTrace] at hi
  cases h with
  | allocFail k err hk herr =>
    refine ⟨Or.inl rfl, ?_⟩
    have ha := hi.1
    rw [forall_allocTrace] at ha
    simp only [List.forall_mem_append, List.forall_mem_cons, forall_okCalls,
      List.not_mem_nil, IsEmpty.forall_iff, implies_true, and_true]
    exact ⟨ha.1, ha.2.1, fun i _ => ⟨rfl, rfl, rfl⟩, ⟨rfl, rfl, rfl⟩, ⟨rfl, rfl, rfl⟩⟩
  | writeFail k err hk herr =>
    refine ⟨Or.inl rfl, ?_⟩
    simp only [List.forall_mem_append, List.forall_mem_cons, forall_okCalls,
      List.not_mem_nil, IsEmpty.forall_iff, implies_true, and_true]
    exact ⟨hi.1, hi.2.1, fun i _ => ⟨rfl, rfl, rfl⟩, ⟨rfl, rfl, rfl⟩, ⟨rfl, rfl, rfl⟩⟩
  | createFail err herr =>
    refine ⟨Or.inl rfl, ?_⟩
    simp only [List.forall_mem_append]
    exact ⟨hq, by simp [Event.isLaunch, Event.isCheck, Event.isTeardown]⟩
  | buildCrash err herr _ =>
    refine ⟨Or.inr rfl, ?_⟩
    simp only [List.forall_mem_append]
    exact ⟨hq, by simp [Event.isLaunch, Event.isCheck, Event.isTeardown]⟩
  | allocCrash k err hk hv =>
    refine ⟨Or.inr rfl, ?_⟩
    have ha := hi.1
    rw [forall_allocTrace] at ha
    simp only [List.forall_mem_append, List.forall_mem_cons, forall_okCalls,
      List.not_mem_nil, IsEmpty.forall_iff, implies_true, and_true]
    exact ⟨ha.1, ha.2.1, fun i _ => ⟨rfl, rfl, rfl⟩, ⟨rfl, rfl, rfl⟩⟩
  | hostCrash k hk hv =>
    refine ⟨Or.inr rfl, ?_⟩
    simp only [List.forall_mem_append, List.forall_mem_cons, List.mem_map,
      forall_exists_index, and_imp]
    refine ⟨hi.1, ⟨rfl, rfl, rfl⟩, ⟨rfl, rfl, rfl⟩, ?_,
      by simp [Event.isLaunch, Event.isCheck, Event.isTeardown]⟩
    intro e i _ h
    rw [← h]; exact ⟨rfl, rfl, rfl⟩
  | buildFail err herr _ =>
    refine ⟨Or.inl rfl, ?_⟩
    simp only [List.forall_mem_append]
    exact ⟨hq, by simp [Event.isLaunch, Event.isCheck, Event.isTeardown]⟩
  | badNX _ =>
    refine ⟨Or.inl rfl, ?_⟩
    simp only [List.forall_mem_append]
    exact ⟨⟨hq, by simp [buildTrace, Event.isLaunch, Event.isCheck, Event.isTeardown]⟩,
      by simp [Event.isLaunch, Event.isCheck, Event.isTeardown]⟩
  | unable h => exact absurd h h64
  | launchFail _ _ h => exact absurd h h64
  | readFail _ _ h => exact absurd h h64
  | verifyFail h => exact absurd h h64
  | success h => exact absurd h h64

theorem launchPhase_trace_ne (d : Device) (k n nX nA : Nat) (host dev : Mem) (b : Event)
    (bs : List Event) (hb : b ≠ .printBadNX) :
    launchPhase d k n nX nA host dev (b :: bs) ≠ ⟨[.printBadNX], .exited 1⟩ := by
  intro h
  have ht := congrArg Outcome.trace h
  unfold launchPhase at ht
  split at ht
  · simp at ht; exact hb ht.1
  · simp [Outcome.after] at ht

/-- On a device that runs the embedded kernels and a host whose blocks take
the program's stores, a run with 1 or 2 chunks whose element count is a
multiple of 64 and fits the kernels' 32-bit index leaves 100 in every element,
passes verification and exits with status 0. -/
theorem krn_run_succeeds (d : Device) (argv : List String) (chunk maxmem : Nat)
    (hd : CheckedOk d) (hk : d.launch = krnLaunch) (hf : getFlags argv = .ok chunk maxmem)
    (hc : chunk ≠ 0) (hh : HostOk d (maxmem / chunk) (elemCount chunk))
    (hn : maxmem / chunk = 1 ∨ maxmem / chunk = 2)
    (h64 : elemCount chunk % 64 = 0) (hX : elemCount chunk ≤ UINT_RANGE) :
    (∀ c j, c < maxmem / chunk → j < elemCount chunk →
      devFinal d (maxmem / chunk) (elemCount chunk) c j = 100) ∧
    main d argv = ⟨successTrace d (maxmem / chunk) (elemCount chunk), .exited 0⟩ := by
  have hl : LaunchIncrements d (maxmem / chunk) (elemCount chunk) := by
    intro m c j hcn hj
    rw [hk]
    exact krnLaunch_apply _ _ hn h64 hX m c j hcn hj
  refine ⟨?_, main_success d argv chunk maxmem hd hf hc hh hn h64 hl⟩
  intro c j hcn hj
  unfold devFinal
  rw [iterate_incr _ _ _ hl 100 _ c j hcn hj, devWritten_apply d _ _ c j hcn hj]
  norm_num

/-! ## Host blocks and the values of the flags -/

/-- The store of handle `i` is defined whenever that of a later handle is. -/
theorem handleStoreOk_mono (d : Device) (n i k : Nat) (hik : i ≤ k)
    (h : handleStoreOk d n k = true) : handleStoreOk d n i = true := by
  unfold handleStoreOk at h ⊢
  simp only [Bool.and_eq_true, decide_eq_true_eq] at h ⊢
  refine ⟨h.1, le_trans ?_ h.2⟩
  exact Nat.mul_le_mul_right _ (by omega)

/-- On a host that grants every request of at most `PTRDIFF_MAX` bytes, the
blocks of a run whose arrays and mirrors stay within that size take every
store. -/
theorem hostOk_of_room (d : Device) (n nX : Nat) (hm : ∀ l i b, d.hostMalloc l i b = true)
    (hn : n * sizeofPtr ≤ PTRDIFF_MAX) (hx : nX * sizeofInt ≤ PTRDIFF_MAX) : HostOk d n nX := by
  have e1 : arrayBytes n = n * sizeofPtr := by
    unfold arrayBytes BIGINT_RANGE
    apply Nat.mod_eq_of_lt
    unfold PTRDIFF_MAX at hn
    omega
  have e2 : mirrorBytes nX = nX * sizeofInt := by
    unfold mirrorBytes BIGINT_RANGE
    apply Nat.mod_eq_of_lt
    unfold PTRDIFF_MAX at hx
    omega
  intro i hi
  have hi2 : (i + 1) * sizeofPtr ≤ n * sizeofPtr := Nat.mul_le_mul_right _ (by omega)
  unfold handleStoreOk mirrorStoreOk granted
  rw [e1, e2]
  simp [hm, hn, hx, hi2]

/-- The conversions of `atoi` and of the assignment to `BIGINT` leave a value
from 0 to 2^31 - 1 unchanged. -/
theorem atoi_small (v : Int) (h0 : 0 ≤ v) (h1 : v < 2 ^ 31) :
    (toBIGINT (toInt32 (clampLong v)) : Int) = v := by
  have hc : clampLong v = v := by
    unfold clampLong
    rw [if_neg (by omega), if_neg (by omega)]
  have h32 : toInt32 v = v := by
    unfold toInt32
    rw [Int.emod_eq_of_lt (by omega) (by omega)]
    omega
  rw [hc, h32]
  unfold toBIGINT BIGINT_RANGE
  have hm : v % ((2 ^ 64 : Nat) : Int) = v := Int.emod_eq_of_lt h0 (by push_cast; omega)
  rw [hm, Int.toNat_of_nonneg h0]

/-- For every run with chunk size `chunk` whose element count is not a multiple
of 64, no kernel launch is enqueued and nothing is read back, verified or torn
down; the process ends with status 1 or in an undefined store, and with
status 1 when the host blocks take the program's stores; the check stands
before both the 1-chunk and the 2-chunk branch. -/
theorem bad_nX_never_launches (d : Device) (argv : List String) (chunk maxmem : Nat)
    (hf : getFlags argv = .ok chunk maxmem) (h64 : elemCount chunk % 64 ≠ 0) :
    (∀ e ∈ (main d argv).trace,
        e.isLaunch = false ∧ e.isCheck = false ∧ e.isTeardown = false) ∧
      ((main d argv).status = .exited 1 ∨ (main d argv).status = .crashed) ∧
      (HostOk d (maxmem / chunk) (elemCount chunk) →
        (d.clBuildProgram = 0 ∨ logStoreOk d = true) → (main d argv).status = .exited 1) ∧
      ∀ n nA host dev,
        kernelPhase d n (elemCount chunk) nA host dev = ⟨[.printBadNX], .exited 1⟩ := by
  have hc : chunk ≠ 0 := by
    intro h0
    rw [h0] at h64
    exact h64 (by decide)
  have hrun := main_run d argv chunk maxmem hf hc
  have hr := run_quiet d _ _ _ hrun h64
  refine ⟨hr.2, hr.1, ?_, ?_⟩
  · intro hh hg
    rcases hr.1 with h | h
    · exact h
    · exact absurd h (run_not_crashed d _ _ _ hrun hh hg)
  · intro n nA host dev
    simp [kernelPhase, h64]

/-! ## The claims -/

/-- C1, as the specification states it, fails: on a device where every call
succeeds and every launch adds 1 to every element, the run for
`--chunk 10 --maxmem 20` exits with status 1 and enqueues no kernel launch. -/
theorem c1_counterexample :
    AllOk plusOneDevice ∧ PlusOne plusOneDevice ∧
      (main plusOneDevice ["cl_maxalloc", "--chunk", "10", "--maxmem", "20"]).status = .exited 1 ∧
      (main plusOneDevice ["cl_maxalloc", "--chunk", "10", "--maxmem", "20"]).trace.any
        Event.isLaunch = false := by
  refine ⟨?_, ?_, by decide, by decide⟩
  · simp [AllOk, CheckedOk, plusOneDevice]
  · intro k glo loc m c j; rfl

/-- C1, as amended: for the argument vector `--chunk 10 --maxmem 20`, on a
device where every inspected device-API call succeeds and a host whose blocks
(the handle array, the array of mirrors, the two mirrors) take the program's
stores, the run plans and allocates 2 chunks of 2500000 elements, prints 20 MB
allocated and 20 MB initialised, builds the program, and then, 2500000 not
being a multiple of 64 (the remainder is 32), prints the `Bad nX` line and
exits with status 1: no kernel is launched, nothing is read back or verified,
no check line is printed and the teardown is not reached. -/
theorem c1_chunk10_maxmem20 (d : Device) (hd : CheckedOk d) (hh : HostOk d 2 2500000) :
    main d ["cl_maxalloc", "--chunk", "10", "--maxmem", "20"]
        = ⟨initTrace d 2 2500000 ++ buildTrace ++ [.printBadNX], .exited 1⟩ ∧
      printedMB 2 2500000 = 20 ∧ 2500000 % 64 = 32 ∧
      ∀ e ∈ (main d ["cl_maxalloc", "--chunk", "10", "--maxmem", "20"]).trace,
        e.isLaunch = false ∧ e.isCheck = false ∧ e.isTeardown = false := by
  have hf : getFlags ["cl_maxalloc", "--chunk", "10", "--maxmem", "20"] = .ok 10 20 := by decide
  have e1 : (20 : Nat) / 10 = 2 := by decide
  have e2 : elemCount 10 = 2500000 := by decide
  have h := main_bad_nX d _ 10 20 hd hf (by decide) (by rw [e1, e2]; exact hh) (by decide)
  rw [e1, e2] at h
  refine ⟨h, by decide, by decide, ?_⟩
  rw [h]
  simp only [List.forall_mem_append, List.forall_mem_singleton]
  exact ⟨⟨initTrace_quiet d 2 2500000,
    by simp [buildTrace, Event.isLaunch, Event.isCheck, Event.isTeardown]⟩,
    by simp [Event.isLaunch, Event.isCheck, Event.isTeardown]⟩

/-- C1, as amended, on the device `plusOneDevice`. -/
theorem c1_witness :
    CheckedOk plusOneDevice ∧ HostOk plusOneDevice 2 2500000 ∧
      (main plusOneDevice ["cl_maxalloc", "--chunk", "10", "--maxmem", "20"]
          = ⟨initTrace plusOneDevice 2 2500000 ++ buildTrace ++ [.printBadNX], .exited 1⟩ ∧
        printedMB 2 2500000 = 20 ∧ 2500000 % 64 = 32 ∧
        ∀ e ∈ (main plusOneDevice ["cl_maxalloc", "--chunk", "10", "--maxmem", "20"]).trace,
          e.isLaunch = false ∧ e.isCheck = false ∧ e.isTeardown = false) :=
  ⟨by simp [CheckedOk, plusOneDevice],
    hostOk_of_room _ _ _ (fun _ _ _ => rfl) (by decide) (by decide),
    c1_chunk10_maxmem20 plusOneDevice (by simp [CheckedOk, plusOneDevice])
      (hostOk_of_room _ _ _ (fun _ _ _ => rfl) (by decide) (by decide))⟩

/-- C2, as the specification states it, fails: with 3 planned chunks and the
creation of buffer 1 failing, the process ends right there with status 1; no
later phase runs with an effective chunk count of 1. -/
theorem c2_counterexample :
    main oneBufferDevice ["cl_maxalloc", "--chunk", "4", "--maxmem", "12"]
      = ⟨acquire oneBufferDevice ++ [.mallocDevArray 3, .clCreateBuffer 0 4000000 0,
          .clCreateBuffer 1 4000000 (-4), .printFail (-4)], .exited 1⟩ := by decide

/-- C2, as amended: in the allocation loop, for every planned chunk count n
and every index k < n at which device-buffer creation first fails, provided
the handle array of line 128 is a block with room for handle k, the loop stops
without trying indices after k, the failure line is printed and the process
terminates there with status 1, so that no later phase runs; and when no
creation fails and the handle array takes all n handles, the later phases run
with the planned chunk count n. -/
theorem c2_alloc_failure_exits (d : Device) (argv : List String) (chunk maxmem : Nat)
    (hf : getFlags argv = .ok chunk maxmem) (hc : chunk ≠ 0) :
    (∀ k, k < maxmem / chunk → handleStoreOk d (maxmem / chunk) k = true →
      (∀ i, i < k → d.clCreateBuffer i (elemCount chunk * sizeofInt) = 0) →
      d.clCreateBuffer k (elemCount chunk * sizeofInt) ≠ 0 →
      main d argv = ⟨acquire d ++ (.mallocDevArray (maxmem / chunk) ::
        (okCalls (fun i err => .clCreateBuffer i (elemCount chunk * sizeofInt) err) k
          ++ [.clCreateBuffer k (elemCount chunk * sizeofInt)
                (d.clCreateBuffer k (elemCount chunk * sizeofInt)),
              .printFail (d.clCreateBuffer k (elemCount chunk * sizeofInt))])), .exited 1⟩) ∧
    ((∀ i, i < maxmem / chunk → handleStoreOk d (maxmem / chunk) i = true) →
      (∀ i, i < maxmem / chunk → d.clCreateBuffer i (elemCount chunk * sizeofInt) = 0) →
      main d argv = (initPhase d (maxmem / chunk) (elemCount chunk)).after
        (allocTrace d (maxmem / chunk) (elemCount chunk))) := by
  constructor
  · intro k hk hs h hfail
    rw [main_of_flags d argv chunk maxmem hf hc,
      allocPhase_fail d _ _ k hk (fun i hi => handleStoreOk_mono d _ i k hi hs) h hfail]
    simp [Outcome.after]
  · intro hs h
    rw [main_of_flags d argv chunk maxmem hf hc, allocPhase_ok d _ _ hs h, after_after]
    simp [allocTrace]

/-- C2, as amended, for `--chunk 4 --maxmem 12` on the device
`oneBufferDevice`, whose creation of buffer 1 fails. -/
theorem c2_witness :
    handleStoreOk oneBufferDevice (12 / 4) 1 = true ∧
      main oneBufferDevice ["cl_maxalloc", "--chunk", "4", "--maxmem", "12"]
        = ⟨acquire oneBufferDevice ++ (.mallocDevArray (12 / 4) ::
          (okCalls (fun i err => .clCreateBuffer i (elemCount 4 * sizeofInt) err) 1
            ++ [.clCreateBuffer 1 (elemCount 4 * sizeofInt)
                  (oneBufferDevice.clCreateBuffer 1 (elemCount 4 * sizeofInt)),
                .printFail (oneBufferDevice.clCreateBuffer 1 (elemCount 4 * sizeofInt))])),
            .exited 1⟩ :=
  ⟨by decide,
    (c2_alloc_failure_exits oneBufferDevice ["cl_maxalloc", "--chunk", "4", "--maxmem", "12"]
      4 12 (by decide) (by decide)).1 1 (by decide) (by decide)
      (by intro i hi; have : i = 0 := by omega
          subst this; decide) (by decide)⟩

/-- C3, as the specification states it, fails: on a device whose
`clSetKernelArg` reports failure (-38) while every other call succeeds, the
run for `--chunk 4 --maxmem 4` goes on after the failed bind with the 100
launches and the later phases, and exits with status 0; and on a device that
also refuses the launch, the process still goes on from the failed bind to the
launch call and only ends there. -/
theorem c3_counterexample :
    bindFailDevice.clSetKernelArg 1 0 = -38 ∧
      main bindFailDevice ["cl_maxalloc", "--chunk", "4", "--maxmem", "4"]
        = ⟨successTrace bindFailDevice 1 1000000, .exited 0⟩ ∧
      launchTrace bindFailDevice 1
        = .clSetKernelArg 1 0 (-38) ::
          (okCalls (fun i err => .clEnqueueNDRangeKernel 1 i err) 100
            ++ [.clFinish, .printCompleted]) ∧
      main unboundKernelDevice ["cl_maxalloc", "--chunk", "4", "--maxmem", "4"]
        = ⟨initTrace unboundKernelDevice 1 1000000 ++ buildTrace
            ++ [.clSetKernelArg 1 0 (-38), .clEnqueueNDRangeKernel 1 0 (-52),
                .printFail (-52)], .exited 1⟩ := by
  have hf : getFlags ["cl_maxalloc", "--chunk", "4", "--maxmem", "4"] = .ok 4 4 := by decide
  have hd : CheckedOk bindFailDevice := by simp [CheckedOk, bindFailDevice]
  have e1 : (4 : Nat) / 4 = 1 := by decide
  have e2 : elemCount 4 = 1000000 := by decide
  have h := main_success bindFailDevice _ 4 4 hd hf (by decide)
    (hostOk_of_room _ _ _ (fun _ _ _ => rfl) (by decide) (by decide)) (Or.inl e1) (by decide)
    (by intro m c j _ _; rfl)
  rw [e1, e2] at h
  exact ⟨rfl, h, rfl, by decide⟩

/-- C3, as amended: for every run in which the host blocks take the program's
stores (the handle array, the array of mirrors and the mirrors, and, when the
build fails, the block for the build log), and every device-API call whose
status the program inspects (buffer creation, write, program creation, program
build, kernel launch, read-back), if that call reports failure then the
process exits with status 1 and nothing follows the call but the failure line
(after a failed build: the retrieval and printing of the build log), so no
later phase is performed; the status returned by a kernel-argument bind is not
inspected, and the way a run ends is the same whatever the binds return. -/
theorem c3_checked_failures_fatal (d : Device) (argv : List String) :
    ((∀ chunk maxmem, getFlags argv = .ok chunk maxmem →
        HostOk d (maxmem / chunk) (elemCount chunk) ∧
          (d.clBuildProgram = 0 ∨ logStoreOk d = true)) →
      ∀ pre e post, (main d argv).trace = pre ++ e :: post → e.failed = true →
        (main d argv).status = .exited 1 ∧ ∀ x ∈ post, x.isDiagnostic = true) ∧
    (∀ f, (main (withBindStatus d f) argv).status = (main d argv).status) := by
  refine ⟨?_, fun f => main_status_withBind d f argv⟩
  intro hs pre e post ht hfail
  have hfs := main_failStop d argv pre e post ht hfail
  refine ⟨?_, hfs.2⟩
  rcases hfs.1 with h | h
  · exact h
  · exfalso
    cases hf : getFlags argv with
    | usage => simp [main, hf] at h
    | badRead i =>
      have e0 : (main d argv).trace = [] := by simp [main, hf]
      rw [e0] at ht
      simp at ht
    | ok chunk maxmem =>
      by_cases hc : chunk = 0
      · have e0 : (main d argv).trace = [] := by simp [main, hf, hc]
        rw [e0] at ht
        simp at ht
      · exact run_not_crashed d _ _ _ (main_run d argv chunk maxmem hf hc)
          (hs chunk maxmem hf).1 (hs chunk maxmem hf).2 h

/-- C3, as amended, for `--chunk 4 --maxmem 12` on the device
`oneBufferDevice`: the failed creation of buffer 1 is followed by the failure
line only and the status is 1. -/
theorem c3_witness :
    (main oneBufferDevice ["cl_maxalloc", "--chunk", "4", "--maxmem", "12"]).status = .exited 1 ∧
      ∀ x ∈ [Event.printFail (-4)], x.isDiagnostic = true :=
  (c3_checked_failures_fatal oneBufferDevice
    ["cl_maxalloc", "--chunk", "4", "--maxmem", "12"]).1
    (by
      intro chunk maxmem hf
      have h0 : getFlags ["cl_maxalloc", "--chunk", "4", "--maxmem", "12"] = .ok 4 12 := by
        decide
      rw [h0] at hf
      injection hf with h1 h2
      subst h1 h2
      exact ⟨hostOk_of_room _ _ _ (fun _ _ _ => rfl) (by decide) (by decide), Or.inl rfl⟩)
    (acquire oneBufferDevice ++ [.mallocDevArray 3, .clCreateBuffer 0 4000000 0])
    (.clCreateBuffer 1 4000000 (-4)) [.printFail (-4)] (by decide) (by decide)

/-- C4, as the specification states it, fails: for `--chunk 4 --maxmem 12`
(3 chunks) on a device where every call succeeds, the program is built, the
line `Unable to run test kernel` is printed and the process exits with
status 1 without reaching the teardown. -/
theorem c4_counterexample :
    main idealDevice ["cl_maxalloc", "--chunk", "4", "--maxmem", "12"]
      = ⟨initTrace idealDevice 3 1000000 ++ buildTrace ++ [.printUnable], .exited 1⟩ := by
  decide

/-- C4, as amended: for every run in which allocation and initialisation
succeed (every buffer creation and every write reports success, and the handle
array, the array of mirrors and the mirrors take the program's stores) and the
effective chunk count is not 1 and not 2, the program is nevertheless created
(and, if that succeeds, built), no kernel is launched, nothing is read back or
verified, the teardown is not reached and the exit status is 1 (after a failed
build: provided the block for the build log takes the log's terminator); when
creation and build succeed the last line printed is `Bad nX` if the element
count is not a multiple of 64 and `Unable to run test kernel` otherwise. -/
theorem c4_other_chunk_counts (d : Device) (argv : List String) (chunk maxmem : Nat)
    (hf : getFlags argv = .ok chunk maxmem) (hc : chunk ≠ 0)
    (hh : HostOk d (maxmem / chunk) (elemCount chunk))
    (ha : ∀ i, i < maxmem / chunk → d.clCreateBuffer i (elemCount chunk * sizeofInt) = 0)
    (hw : ∀ i, i < maxmem / chunk → d.clEnqueueWriteBuffer i = 0)
    (h1 : maxmem / chunk ≠ 1) (h2 : maxmem / chunk ≠ 2) :
    ((d.clCreateProgramWithSource ≠ 0 ∨ d.clBuildProgram = 0 ∨ logStoreOk d = true) →
        (main d argv).status = .exited 1) ∧
      .clCreateProgramWithSource d.clCreateProgramWithSource ∈ (main d argv).trace ∧
      (∀ e ∈ (main d argv).trace,
        e.isLaunch = false ∧ e.isCheck = false ∧ e.isTeardown = false) ∧
      (d.clCreateProgramWithSource = 0 → d.clBuildProgram = 0 →
        main d argv = ⟨initTrace d (maxmem / chunk) (elemCount chunk) ++ buildTrace
          ++ [if elemCount chunk % 64 ≠ 0 then .printBadNX else .printUnable], .exited 1⟩) := by
  have hm := main_to_build d argv chunk maxmem hf hc hh ha hw
  have hq := initTrace_quiet d (maxmem / chunk) (elemCount chunk)
  by_cases hp : d.clCreateProgramWithSource = 0
  · by_cases hb : d.clBuildProgram = 0
    · have e : main d argv = ⟨initTrace d (maxmem / chunk) (elemCount chunk) ++ buildTrace
          ++ [if elemCount chunk % 64 ≠ 0 then .printBadNX else .printUnable], .exited 1⟩ := by
        rw [hm, buildPhase_ok d _ _ _ _ _ hp hb, after_after]
        by_cases h64 : elemCount chunk % 64 = 0
        · simp [kernelPhase, h64, h1, h2, Outcome.after, buildTrace]
        · simp [kernelPhase, h64, Outcome.after, buildTrace]
      refine ⟨fun _ => by rw [e], by rw [e, hp]; simp [buildTrace], ?_, fun _ _ => e⟩
      rw [e]
      simp only [List.forall_mem_append, List.forall_mem_singleton]
      refine ⟨⟨hq, by simp [buildTrace, Event.isLaunch, Event.isCheck, Event.isTeardown]⟩, ?_⟩
      split <;> simp [Event.isLaunch, Event.isCheck, Event.isTeardown]
    · by_cases hl : logStoreOk d = true
      · have e : main d argv = ⟨initTrace d (maxmem / chunk) (elemCount chunk)
            ++ [.clCreateProgramWithSource d.clCreateProgramWithSource,
                .clBuildProgram d.clBuildProgram, .clGetProgramBuildInfo,
                .mallocLog (logBytes d), .clGetProgramBuildInfo, .printBuildLog],
            .exited 1⟩ := by
          rw [hm]; simp [buildPhase, hp, hb, hl, Outcome.after]
        refine ⟨fun _ => by rw [e], by rw [e]; simp, ?_, fun _ h => absurd h hb⟩
        rw [e]
        simp only [List.forall_mem_append]
        exact ⟨hq, by simp [Event.isLaunch, Event.isCheck, Event.isTeardown]⟩
      · have hl2 : logStoreOk d = false := by simpa using hl
        have e : main d argv = ⟨initTrace d (maxmem / chunk) (elemCount chunk)
            ++ [.clCreateProgramWithSource d.clCreateProgramWithSource,
                .clBuildProgram d.clBuildProgram, .clGetProgramBuildInfo,
                .mallocLog (logBytes d), .clGetProgramBuildInfo], .crashed⟩ := by
          rw [hm]; simp [buildPhase, hp, hb, hl2, Outcome.after]
        refine ⟨?_, by rw [e]; simp, ?_, fun _ h => absurd h hb⟩
        · rintro (h | h | h)
          · exact absurd hp h
          · exact absurd h hb
          · exact absurd h hl
        rw [e]
        simp only [List.forall_mem_append]
        exact ⟨hq, by simp [Event.isLaunch, Event.isCheck, Event.isTeardown]⟩
  · have e : main d argv = ⟨initTrace d (maxmem / chunk) (elemCount chunk)
        ++ [.clCreateProgramWithSource d.clCreateProgramWithSource,
            .printCreateProgram d.clCreateProgramWithSource], .exited 1⟩ := by
      rw [hm]; simp [buildPhase, hp, Outcome.after]
    refine ⟨fun _ => by rw [e], by rw [e]; simp, ?_, fun h => absurd h hp⟩
    rw [e]
    simp only [List.forall_mem_append]
    exact ⟨hq, by simp [Event.isLaunch, Event.isCheck, Event.isTeardown]⟩

/-- C4, as amended, for `--chunk 4 --maxmem 8000` (2000 chunks) on the device
`plusOneDevice`. -/
theorem c4_witness :
    HostOk plusOneDevice (8000 / 4) (elemCount 4) ∧
      ((plusOneDevice.clCreateProgramWithSource ≠ 0 ∨ plusOneDevice.clBuildProgram = 0 ∨
          logStoreOk plusOneDevice = true) →
        (main plusOneDevice ["cl_maxalloc", "--chunk", "4", "--maxmem", "8000"]).status
          = .exited 1) ∧
      .clCreateProgramWithSource plusOneDevice.clCreateProgramWithSource
        ∈ (main plusOneDevice ["cl_maxalloc", "--chunk", "4", "--maxmem", "8000"]).trace ∧
      (∀ e ∈ (main plusOneDevice ["cl_maxalloc", "--chunk", "4", "--maxmem", "8000"]).trace,
        e.isLaunch = false ∧ e.isCheck = false ∧ e.isTeardown = false) ∧
      (plusOneDevice.clCreateProgramWithSource = 0 → plusOneDevice.clBuildProgram = 0 →
        main plusOneDevice ["cl_maxalloc", "--chunk", "4", "--maxmem", "8000"]
          = ⟨initTrace plusOneDevice (8000 / 4) (elemCount 4) ++ buildTrace
            ++ [if elemCount 4 % 64 ≠ 0 then .printBadNX else .printUnable], .exited 1⟩) :=
  ⟨hostOk_of_room _ _ _ (fun _ _ _ => rfl) (by decide) (by decide),
    c4_other_chunk_counts plusOneDevice ["cl_maxalloc", "--chunk", "4", "--maxmem", "8000"]
      4 8000 (by decide) (by decide)
      (hostOk_of_room _ _ _ (fun _ _ _ => rfl) (by decide) (by decide))
      (fun _ _ => rfl) (fun _ _ => rfl) (by decide) (by decide)⟩

/-- C5: the code does not do what the claim says.  For
`--chunk 17180 --maxmem 17180` there is 1 chunk of 4295000000 elements, a
multiple of 64; every call succeeds and every launch runs the embedded kernel
`test_1chunk`, whose index `idx` is an `unsigned int`: the work-items whose
global index is 4294967296 or more write elements 0, 1, ... again, so that
after the 100 launches element 4294967296 still holds 0, verification fails
and the process exits with status 1 instead of 0. -/
theorem c5_index_wraps :
    getFlags ["cl_maxalloc", "--chunk", "17180", "--maxmem", "17180"] = .ok 17180 17180 ∧
      elemCount 17180 = 4295000000 ∧ 4295000000 % 64 = 0 ∧ CheckedOk idealDevice ∧
      idealDevice.launch = krnLaunch ∧
      devFinal idealDevice 1 4295000000 0 4294967296 = 0 ∧
      main idealDevice ["cl_maxalloc", "--chunk", "17180", "--maxmem", "17180"]
        = ⟨initTrace idealDevice 1 4295000000 ++ buildTrace ++ launchTrace idealDevice 1
            ++ (okCalls (fun i err => .clEnqueueReadBuffer i err) 1 ++ [.printFailPlain]),
          .exited 1⟩ := by
  have hf : getFlags ["cl_maxalloc", "--chunk", "17180", "--maxmem", "17180"]
      = .ok 17180 17180 := by decide
  have e1 : (17180 : Nat) / 17180 = 1 := by decide
  have e2 : elemCount 17180 = 4295000000 := by decide
  have hl : idealDevice.launch = krnLaunch := rfl
  have hz : devFinal idealDevice 1 4295000000 0 4294967296 = 0 := by
    unfold devFinal
    rw [hl, iterate_high _ 0 4294967296
      (fun m => krnLaunch_high 1 4295000000 64 m 0 4294967296 (by decide)) 100,
      devWritten_apply idealDevice _ _ 0 4294967296 (by decide) (by decide)]
  have h := main_mismatch idealDevice _ 17180 17180 idealDevice_checkedOk hf (by decide)
    (hostOk_of_room _ _ _ (fun _ _ _ => rfl) (by decide) (by decide))
    (Or.inl e1) (by decide) 0 4294967296 (by decide) (by decide)
    (by rw [e1, e2, hz]; decide)
  rw [e1, e2] at h
  exact ⟨hf, e2, by decide, idealDevice_checkedOk, hl, hz, h⟩

/-- C6: the code does not do what the claim says.  For
`--chunk 10 --maxmem -1` the element count is 2500000, not a multiple of 64
(the remainder is 32), and `maxmem` is 18446744073709551615: the run plans
1844674407370955161 chunks and asks `malloc` for 14757395258967641288 bytes
for the handle array (line 128), more than `PTRDIFF_MAX`, so that `malloc`
returns NULL; the result is not inspected, and on every device the store of
the first handle (line 130) goes through the null pointer: the process does
not reach the divisibility check and does not exit with status 1. -/
theorem c6_unchecked_malloc_crash :
    getFlags ["cl_maxalloc", "--chunk", "10", "--maxmem", "-1"]
        = .ok 10 18446744073709551615 ∧
      elemCount 10 = 2500000 ∧ 2500000 % 64 = 32 ∧
      18446744073709551615 / 10 = 1844674407370955161 ∧
      arrayBytes 1844674407370955161 = 14757395258967641288 ∧
      PTRDIFF_MAX < 14757395258967641288 ∧
      ∀ d : Device, main d ["cl_maxalloc", "--chunk", "10", "--maxmem", "-1"]
        = ⟨acquire d ++ [.mallocDevArray 1844674407370955161,
            .clCreateBuffer 0 10000000 (d.clCreateBuffer 0 10000000)], .crashed⟩ := by
  have hf : getFlags ["cl_maxalloc", "--chunk", "10", "--maxmem", "-1"]
      = .ok 10 18446744073709551615 := by decide
  refine ⟨hf, by decide, by decide, by decide, by decide, by decide, ?_⟩
  intro d
  have e1 : 18446744073709551615 / 10 = 1844674407370955161 := by decide
  have e2 : elemCount 10 = 2500000 := by decide
  have hv : handleStoreOk d 1844674407370955161 0 = false := by
    have hb : arrayBytes 1844674407370955161 = 14757395258967641288 := by decide
    unfold handleStoreOk granted
    rw [hb]
    have hp : decide (14757395258967641288 ≤ PTRDIFF_MAX) = false := by decide
    rw [hp]
    rfl
  rw [main_of_flags d _ 10 18446744073709551615 hf (by decide), e1, e2,
    allocPhase_crash d _ _ 0 (by decide) (by intro i hi; omega) (by intro i hi; omega) hv]
  simp [Outcome.after, okCalls, sizeofInt]

/-- C7, as the specification states it, fails: a `--chunk` or `--maxmem` that
is the last argument has no argument after it (the run reads `argv[argc]` and
has no exit status); the integer value of the argument of `--chunk -4` is -4
but `chunk` is 18446744073709551612, and the element count is then not
`chunk * 10^6 / sizeof(int)`; the integer value of the argument of
`--chunk 2147483648` is 2147483648 but `chunk` is 18446744071562067968; and
for `--chunk 0` the division `maxmem / chunk` has no value. -/
theorem c7_counterexample :
    getFlags ["cl_maxalloc", "--chunk"] = .badRead 2 ∧
      main idealDevice ["cl_maxalloc", "--maxmem"] = ⟨[], .crashed⟩ ∧
      getFlags ["cl_maxalloc", "--chunk", "-4"] = .ok 18446744073709551612 2000 ∧
      flagValue "--chunk" ["--chunk", "-4"] 10 = -4 ∧
      elemCount 18446744073709551612 = 4611686018426387904 ∧
      18446744073709551612 * 1000000 / sizeofInt = 4611686018427387903000000 ∧
      getFlags ["cl_maxalloc", "--chunk", "2147483648"] = .ok 18446744071562067968 2000 ∧
      flagValue "--chunk" ["--chunk", "2147483648"] 10 = 2147483648 ∧
      elemCount 18446744071562067968 = 4611149147515387904 ∧
      main idealDevice ["cl_maxalloc", "--chunk", "0", "--maxmem", "20"] = ⟨[], .crashed⟩ := by
  decide

/-- C7, as amended.  For every argument vector: if the argument count is
greater than 6, the run uses chunk = 10 and maxmem = 2000 and no flag
(`--help` included) has any effect; if it is at most 6, a `--help` among
`argv[1..]` causes usage to be printed and exit status 1 before any device
call, and otherwise, provided neither `--chunk` nor `--maxmem` is the last
argument, chunk and maxmem are the integer values of the arguments that follow
the last `--chunk` and the last `--maxmem` (10 and 2000 when the flag is
absent) as `atoi` and the assignment deliver them: clamped to the range of
`long`, reduced to the 32-bit `int` and converted to the unsigned 64-bit
`BIGINT`, which leaves a value from 0 to 2^31 - 1 unchanged; then, provided
chunk is not 0, the run plans `maxmem / chunk` chunks (truncating division) of
`(chunk * 10^6 mod 2^64) / sizeof(int)` elements, which is
`chunk * 10^6 / sizeof(int)` when `chunk * 10^6 < 2^64`. -/
theorem c7_flags (d : Device) (argv : List String) :
    (6 < argv.length →
      getFlags argv = .ok 10 2000 ∧
      main d argv = (allocPhase d 200 2500000).after (acquire d)) ∧
    (argv.length ≤ 6 → "--help" ∈ argv.tail → main d argv = ⟨[.printUsage], .exited 1⟩) ∧
    (argv.length ≤ 6 → "--help" ∉ argv.tail → argv.tail.getLast? ≠ some "--chunk" →
      argv.tail.getLast? ≠ some "--maxmem" →
      getFlags argv = .ok (toBIGINT (toInt32 (clampLong (flagValue "--chunk" argv.tail 10))))
        (toBIGINT (toInt32 (clampLong (flagValue "--maxmem" argv.tail 2000))))) ∧
    (∀ v : Int, 0 ≤ v → v < 2 ^ 31 → (toBIGINT (toInt32 (clampLong v)) : Int) = v) ∧
    (∀ chunk maxmem, getFlags argv = .ok chunk maxmem → chunk ≠ 0 →
      main d argv = (allocPhase d (maxmem / chunk) (elemCount chunk)).after (acquire d)) ∧
    (∀ chunk, elemCount chunk = chunk * 1000000 % 2 ^ 64 / sizeofInt) ∧
    (∀ chunk, chunk * 1000000 < 2 ^ 64 → elemCount chunk = chunk * 1000000 / sizeofInt) := by
  refine ⟨?_, ?_, ?_, atoi_small, ?_, fun _ => rfl, ?_⟩
  · intro h
    have hf : getFlags argv = .ok 10 2000 := by
      have : ¬ argv.length ≤ 6 := by omega
      simp [getFlags, this]
    refine ⟨hf, ?_⟩
    have := main_of_flags d argv 10 2000 hf (by decide)
    have e1 : (2000 : Nat) / 10 = 200 := by decide
    have e2 : elemCount 10 = 2500000 := by decide
    rwa [e1, e2] at this
  · intro h hh
    have hf : getFlags argv = .usage := by
      simp only [getFlags, h, if_true]
      exact flagLoop_help _ _ _ _ hh
    simp [main, hf]
  · intro h hh h1 h2
    simp only [getFlags, h, if_true]
    rw [flagLoop_eq 1 argv.tail 10 2000 hh h1 h2]
    unfold flagValue
    have t1 : toBIGINT (toInt32 (clampLong 10)) = 10 := by decide
    have t2 : toBIGINT (toInt32 (clampLong 2000)) = 2000 := by decide
    cases lastFlagArg "--chunk" argv.tail <;> cases lastFlagArg "--maxmem" argv.tail <;>
      simp only [Option.elim, t1, t2] <;> rfl
  · intro chunk maxmem hf hc
    exact main_of_flags d argv chunk maxmem hf hc
  · intro chunk h
    unfold elemCount BIGINT_RANGE
    rw [Nat.mod_eq_of_lt h]

/-- C7, as amended, for `--maxmem 20 --chunk 4`: the flags are read in any
order. -/
theorem c7_witness :
    getFlags ["cl_maxalloc", "--maxmem", "20", "--chunk", "4"]
      = .ok (toBIGINT (toInt32 (clampLong
            (flagValue "--chunk" ["--maxmem", "20", "--chunk", "4"] 10))))
          (toBIGINT (toInt32 (clampLong
            (flagValue "--maxmem" ["--maxmem", "20", "--chunk", "4"] 2000)))) :=
  (c7_flags idealDevice ["cl_maxalloc", "--maxmem", "20", "--chunk", "4"]).2.2.1
    (by decide) (by decide) (by decide) (by decide)

/-- C9: for every chunk size C with C * 10^6 < 2^64, the element count is
nX = C * 250000 exactly, so nX * sizeof(int) = C * 10^6 and
k * nX * 4 / 10^6 = k * C for every k (and the size the program prints for k
chunks is k * C whenever k * C * 10^6 fits in `BIGINT`); nX is a multiple of
64 if and only if C is a multiple of 4, and the kernel phase ends at the
divisibility check exactly for the chunk sizes that are not multiples of 4. -/
theorem c9_elemCount (C : Nat) (hC : C * 1000000 < 2 ^ 64) :
    elemCount C = C * 250000 ∧ elemCount C * sizeofInt = C * 1000000 ∧
      (∀ k, k * elemCount C * sizeofInt / 1000000 = k * C) ∧
      (∀ k, k * C * 1000000 < 2 ^ 64 → printedMB k (elemCount C) = k * C) ∧
      (elemCount C % 64 = 0 ↔ C % 4 = 0) ∧
      (∀ d n nA host dev,
        kernelPhase d n (elemCount C) nA host dev = ⟨[.printBadNX], .exited 1⟩ ↔ C % 4 ≠ 0) := by
  have e : elemCount C = C * 250000 := by
    unfold elemCount BIGINT_RANGE sizeofInt
    rw [Nat.mod_eq_of_lt hC]
    omega
  have e64 : elemCount C % 64 = 0 ↔ C % 4 = 0 := by
    rw [e]; omega
  refine ⟨e, by rw [e]; unfold sizeofInt; ring, ?_, ?_, e64, ?_⟩
  · intro k
    rw [e]; unfold sizeofInt
    have : k * (C * 250000) * 4 = k * C * 1000000 := by ring
    rw [this]
    exact Nat.mul_div_cancel _ (by norm_num)
  · intro k hk
    unfold printedMB BIGINT_RANGE sizeofInt
    rw [e]
    have : k * (C * 250000) * 4 = k * C * 1000000 := by ring
    rw [this, Nat.mod_eq_of_lt hk]
    exact Nat.mul_div_cancel _ (by norm_num)
  · intro d n nA host dev
    constructor
    · intro h h4
      have h64 := e64.mpr h4
      unfold kernelPhase at h
      simp only [h64, ne_eq, not_true_eq_false, if_false] at h
      split_ifs at h
      · exact launchPhase_trace_ne _ _ _ _ _ _ _ _ _ (by simp) h
      · exact launchPhase_trace_ne _ _ _ _ _ _ _ _ _ (by simp) h
      · simp at h
    · intro h4
      have h64 : elemCount C % 64 ≠ 0 := fun h => h4 (e64.mp h)
      simp [kernelPhase, h64]

/-- C9 for the chunk size 12. -/
theorem c9_witness :
    elemCount 12 = 12 * 250000 ∧ elemCount 12 * sizeofInt = 12 * 1000000 ∧
      (∀ k, k * elemCount 12 * sizeofInt / 1000000 = k * 12) ∧
      (∀ k, k * 12 * 1000000 < 2 ^ 64 → printedMB k (elemCount 12) = k * 12) ∧
      (elemCount 12 % 64 = 0 ↔ 12 % 4 = 0) ∧
      (∀ d n nA host dev,
        kernelPhase d n (elemCount 12) nA host dev = ⟨[.printBadNX], .exited 1⟩
          ↔ 12 % 4 ≠ 0) :=
  c9_elemCount 12 (by norm_num)

/-- C10: the code does not do what the claim says.  For the argument vector
`cl_maxalloc --chunk` (argc = 2) the flag loop reads `argv[2]`, that is
`argv[argc]`, and hands it to `atoi`; for `cl_maxalloc --chunk 0` the parsed
chunk size is 0 and line 110 divides by it.  In both runs the configure phase
does not complete. -/
theorem c10_configure_not_total :
    getFlags ["cl_maxalloc", "--chunk"] = .badRead 2 ∧
      ["cl_maxalloc", "--chunk"].length = 2 ∧
      main idealDevice ["cl_maxalloc", "--chunk"] = ⟨[], .crashed⟩ ∧
      getFlags ["cl_maxalloc", "--chunk", "0"] = .ok 0 2000 ∧
      main idealDevice ["cl_maxalloc", "--chunk", "0"] = ⟨[], .crashed⟩ := by
  decide


end ClMaxalloc
